import Mathlib

/-!
# objectstore: a bucket-scoped client over an object-storage backend

A shallow embedding of `objectstore/objectstore.go`.

The Go methods talk to two collaborators that are not part of the package:
the object-storage backend (through `minio.Client`) and the local filesystem
(through `os` and `io`).  Both are represented by one explicit `World` value
that every operation receives and returns:

* `objects`   the backend, an association list from (bucket, key) to bytes;
* `files`     the regular files of the local filesystem, by path;
* `dirs`      the directories of the local filesystem, by path, with their mode;
* `randoms`   the random name parts `os.CreateTemp` will draw;
* `faults`    which library call fails, and with which error: any call of
              the two collaborators may fail for a reason of its own
              (permissions, network, authentication, disk full);
* `shortRead`, `shortWrite`  how many bytes a failing read or write still moves;
* `trace`     the library calls issued so far, in order;
* `stdout`    what was printed.

The methods of `StoreClient` are translated statement by statement; a method
with a pointer receiver returns the receiver along with its result. The
library calls follow their documentation: `Close()` can fail like any other
call, `os.MkdirAll` and `FGetObject` take a path that names a directory (by
the clean form of its text) for that directory, and `FGetObject` creates the
missing directories above its file itself.
-/

namespace Objectstore

/-! ## Bytes and errors -/

/-- One octet. -/
abbrev Byte := Fin 256

/-- The content of an object, a file or a buffer (`[]byte`). -/
abbrev Bytes := List Byte

/-- Go `error` values, as far as the program can tell them apart:
`base` is an error produced by a library call, `errorf` is the value built by
`fmt.Errorf` with the `%v` verb (a fresh error holding only the formatted
text), `wrap` is the value built by `errors.Wrap` of `github.com/pkg/errors`
(it keeps the cause). -/
inductive GoError where
  | base (msg : String)
  | errorf (msg : String)
  | wrap (cause : GoError) (msg : String)
  deriving DecidableEq, Repr

/-- The method `Error()` of an error: its message. -/
def GoError.Error : GoError → String
  | .base m => m
  | .errorf m => m
  | .wrap c m => m ++ ": " ++ c.Error

/-- The call `fmt.Errorf(pre + "%v", err)` for a non-nil `err`. -/
def fmtErrorf (pre : String) (err : GoError) : GoError :=
  .errorf (pre ++ err.Error)

/-- The call `errors.Wrap(err, msg)` for a non-nil `err`. -/
def errorsWrap (err : GoError) (msg : String) : GoError :=
  .wrap err msg

/-! ## The world: backend, filesystem, failures -/

/-- The library calls the program issues, with the arguments that address them. -/
inductive Call where
  | minioNew (endpoint accessKeyID secretAccessKey : String) (secure : Bool)
  | mkdirAll (path : String) (perm : Nat)
  | osOpen (name : String)
  | osCreate (name : String)
  | osCreateTemp (dir pattern : String)
  | fileStat (name : String)
  | fileWrite (name : String)
  | fileClose (name : String)
  | fGetObject (bucket object filePath : String)
  | listObjects (bucket pfx : String) (recursive : Bool)
  | putObject (bucket object : String) (size : Nat)
  | getObject (bucket object : String)
  | statObject (bucket object : String)
  | objRead (bucket object : String)
  | objClose (bucket object : String)
  deriving DecidableEq, Repr

/-- The bucket a backend request is addressed to; `none` for a call that is
not a backend request. -/
def Call.bucket? : Call → Option String
  | .fGetObject b _ _ => some b
  | .listObjects b _ _ => some b
  | .putObject b _ _ => some b
  | .getObject b _ => some b
  | .statObject b _ => some b
  | .objRead b _ => some b
  | _ => none

/-- The state of the backend and of the local filesystem. -/
structure World where
  objects : List ((String × String) × Bytes)
  files : String → Option Bytes
  dirs : String → Option Nat
  randoms : List String
  faults : Call → Option GoError
  shortRead : String → String → Nat
  shortWrite : String → Nat
  trace : List Call
  stdout : List String

/-- Record a library call. -/
def World.log (w : World) (c : Call) : World :=
  { w with trace := w.trace ++ [c] }

/-- The object stored under a key of a bucket. -/
def World.object? (w : World) (bucket object : String) : Option Bytes :=
  w.objects.lookup (bucket, object)

/-- Something (a file or a directory) exists at the path. -/
def World.pathExists (w : World) (p : String) : Bool :=
  (w.files p).isSome || (w.dirs p).isSome

/-- A regular file exists at the path. -/
def World.fileExists (w : World) (p : String) : Bool :=
  (w.files p).isSome

/-- A directory exists at the path. -/
def World.isDir (w : World) (p : String) : Bool :=
  (w.dirs p).isSome

/-- No library call fails for a reason of its own. -/
def World.FaultFree (w : World) : Prop :=
  ∀ c, w.faults c = none

/-- Store a value under a key, replacing the one that was there. -/
def storePut (objs : List ((String × String) × Bytes)) (k : String × String) (v : Bytes) :
    List ((String × String) × Bytes) :=
  (k, v) :: objs.filter (fun e => e.1 != k)

/-- The message of the backend's error for a key that does not exist
(`NoSuchKey`). -/
def noSuchKeyMessage : String := "The specified key does not exist."

/-! ## The filesystem calls (`os`, `io`) -/

/-- The proper ancestors of a path: the prefixes that end right before a
separator, the root apart. `acc` is the part already read, reversed. -/
def ancestorsAux : List Char → List Char → List String
  | _, [] => []
  | acc, c :: cs =>
    if c = '/' ∧ acc ≠ [] then String.mk acc.reverse :: ancestorsAux (c :: acc) cs
    else ancestorsAux (c :: acc) cs

/-- The directories `os.MkdirAll path` has to provide: the proper ancestors of
the path and the path itself. -/
def ancestors (path : String) : List String :=
  ancestorsAux [] path.data ++ [path]

/-- The components of a path, between its separators. -/
def splitSlash : List Char → List (List Char)
  | [] => [[]]
  | c :: cs =>
    if c = '/' then [] :: splitSlash cs
    else
      match splitSlash cs with
      | [] => [[c]]
      | h :: t => (c :: h) :: t

/-- One step of `filepath.Clean`: an empty component and `.` are dropped, `..`
removes the component before it (at the root it is dropped, at the start of
a relative path it is kept). The stack holds the components kept so far, the
last one first. -/
def cleanStep (rooted : Bool) (stack : List (List Char)) (comp : List Char) :
    List (List Char) :=
  if comp = [] ∨ comp = ['.'] then stack
  else if comp = ['.', '.'] then
    match stack with
    | [] => if rooted then [] else [comp]
    | top :: rest => if top = ['.', '.'] then comp :: stack else rest
  else comp :: stack

/-- Components joined by the separator. -/
def joinSlash : List (List Char) → List Char
  | [] => []
  | c :: cs =>
    match cs with
    | [] => c
    | _ :: _ => c ++ '/' :: joinSlash cs

/-- The function `filepath.Clean`: the shortest path naming the same place, by
the text of the path alone. -/
def cleanPath (path : String) : String :=
  let rooted := path.data.head? == some '/'
  let body := joinSlash ((splitSlash path.data).foldl (cleanStep rooted) []).reverse
  if rooted then String.mk ('/' :: body)
  else if body = [] then "." else String.mk body

/-- The path names a directory: it is one, or its clean form is one, or its
clean form is the root or the current directory. -/
def World.resolvesToDir (w : World) (p : String) : Bool :=
  p != "" && (w.isDir p || w.isDir (cleanPath p) || cleanPath p == "/" || cleanPath p == ".")

/-- What `os.MkdirAll(path, perm)` does to the directories, or why it fails:
nothing to do when the path names a directory already; otherwise the path
and those of its ancestors that name no directory become directories of mode
`perm`, unless one of them is a regular file. -/
def mkdirAllDirs (path : String) (perm : Nat) (w : World) :
    Except GoError (String → Option Nat) :=
  if w.resolvesToDir path then .ok w.dirs
  else if path = "" then .error (.base "mkdir : no such file or directory")
  else if (ancestors path).any (fun p => w.fileExists p) then
    .error (.base ("mkdir " ++ path ++ ": not a directory"))
  else
    .ok (fun p =>
      if (ancestors path).contains p && !(w.isDir p) && !(w.resolvesToDir p) then some perm
      else w.dirs p)

/-- The call `os.MkdirAll(path, perm)`. -/
def osMkdirAll (path : String) (perm : Nat) (w : World) : Option GoError × World :=
  let w1 := w.log (.mkdirAll path perm)
  match w.faults (.mkdirAll path perm) with
  | some e => (some e, w1)
  | none =>
    match mkdirAllDirs path perm w with
    | .error e => (some e, w1)
    | .ok dirs1 => (none, { w1 with dirs := dirs1 })

/-- The part of a path before its last separator; `none` when the path has no
separator. -/
def beforeLastSlash : List Char → Option (List Char)
  | [] => none
  | c :: cs =>
    match beforeLastSlash cs with
    | some d => some (c :: d)
    | none => if c = '/' then some [] else none

/-- The directory a file path lies in, as `filepath.Split` gives it, without
trailing separators; `none` when that is empty or the root, where nothing
has to be created. -/
def objectDir (filePath : String) : Option String :=
  match beforeLastSlash filePath.data with
  | none => none
  | some d =>
    match (d.reverse.dropWhile (fun c => c = '/')).reverse with
    | [] => none
    | c :: cs => some (String.mk (c :: cs))

/-- An open file (`*os.File`): the program never renames or removes a file, so
the handle is the name it was opened under. -/
structure File where
  name : String
  deriving DecidableEq, Repr

/-- What `Stat` reports (`os.FileInfo`): the size. Sizes are lengths, so the
`int64` of the source is a natural number. -/
structure FileInfo where
  size : Nat
  deriving DecidableEq, Repr

/-- The method `Size()` of a file info. -/
def FileInfo.Size (fi : FileInfo) : Nat := fi.size

/-- The method `Name()` of a file. -/
def File.Name (f : File) : String := f.name

/-- The call `os.Open(name)`. -/
def osOpen (name : String) (w : World) : Except GoError File × World :=
  let w1 := w.log (.osOpen name)
  match w.faults (.osOpen name) with
  | some e => (.error e, w1)
  | none =>
    if w.fileExists name then (.ok ⟨name⟩, w1)
    else (.error (.base ("open " ++ name ++ ": no such file or directory")), w1)

/-- The call `os.Create(name)`: the file is created, or truncated when it
exists. -/
def osCreate (name : String) (w : World) : Except GoError File × World :=
  let w1 := w.log (.osCreate name)
  match w.faults (.osCreate name) with
  | some e => (.error e, w1)
  | none =>
    if w.isDir name then (.error (.base ("open " ++ name ++ ": is a directory")), w1)
    else (.ok ⟨name⟩, { w1 with files := fun p => if p = name then some [] else w.files p })

/-- The first name `dir/pattern+random` that is free, and the random parts left. -/
def freshName (w : World) (dir pattern : String) : List String → Option (String × List String)
  | [] => none
  | r :: rs =>
    if w.pathExists (dir ++ "/" ++ pattern ++ r) then freshName w dir pattern rs
    else some (dir ++ "/" ++ pattern ++ r, rs)

/-- The call `os.CreateTemp(dir, pattern)` for a pattern without `*`: a new
empty file whose name is the pattern followed by a random part; names that
exist are skipped, at most 10000 times. -/
def osCreateTemp (dir pattern : String) (w : World) : Except GoError File × World :=
  let w1 := w.log (.osCreateTemp dir pattern)
  match w.faults (.osCreateTemp dir pattern) with
  | some e => (.error e, w1)
  | none =>
    match freshName w dir pattern (w.randoms.take 10000) with
    | none => (.error (.base ("open " ++ dir ++ "/" ++ pattern ++ ": file exists")),
        { w1 with randoms := w.randoms.drop 10000 })
    | some (name, rest) =>
      (.ok ⟨name⟩, { w1 with
        files := fun p => if p = name then some [] else w.files p,
        randoms := rest ++ w.randoms.drop 10000 })

/-- The method `Stat()` of an open file. -/
def File.Stat (f : File) (w : World) : Except GoError FileInfo × World :=
  let w1 := w.log (.fileStat f.name)
  match w.faults (.fileStat f.name) with
  | some e => (.error e, w1)
  | none =>
    match w.files f.name with
    | some c => (.ok ⟨c.length⟩, w1)
    | none => (.error (.base ("stat " ++ f.name ++ ": no such file or directory")), w1)

/-- The method `Close()` of an open file: the error it returns, if any, and
the world after it. -/
def File.Close (f : File) (w : World) : Option GoError × World :=
  (w.faults (.fileClose f.name), w.log (.fileClose f.name))

/-- What a reader positioned at the start of the file delivers. -/
def File.contents (f : File) (w : World) : Bytes :=
  (w.files f.name).getD []

/-- Writing `data` at offset 0 over `old`. -/
def writeAt0 (old data : Bytes) : Bytes :=
  data ++ old.drop data.length

/-- Writing `data` through a handle positioned at the start of its file: the
number of bytes written and the error, if any. A failing write still moves
`shortWrite` bytes. -/
def File.Write (f : File) (data : Bytes) (w : World) : (Nat × Option GoError) × World :=
  let w1 := w.log (.fileWrite f.name)
  match w.faults (.fileWrite f.name) with
  | some e =>
    let part := data.take (w.shortWrite f.name)
    ((part.length, some e),
      { w1 with files := fun p => if p = f.name then some (writeAt0 (f.contents w) part)
                                   else w.files p })
  | none =>
    ((data.length, none),
      { w1 with files := fun p => if p = f.name then some (writeAt0 (f.contents w) data)
                                   else w.files p })

/-! ## The backend calls (`minio.Client`) -/

/-- The transport session (`*minio.Client`): what it was configured with. -/
structure MinioClient where
  endpoint : String
  accessKeyID : String
  secretAccessKey : String
  secure : Bool
  deriving DecidableEq, Repr

/-- The call `minio.New(endpoint, &minio.Options{Creds: static V4, Secure})`:
it builds the session and contacts nobody. -/
def minioNew (endpoint accessKeyID secretAccessKey : String) (secure : Bool) (w : World) :
    Except GoError MinioClient :=
  match w.faults (.minioNew endpoint accessKeyID secretAccessKey secure) with
  | some e => .error e
  | none => .ok ⟨endpoint, accessKeyID, secretAccessKey, secure⟩

/-- The options of an upload (`minio.PutObjectOptions`), passed through. -/
structure PutObjectOptions where
  ContentType : String
  UserMetadata : List (String × String)
  deriving DecidableEq, Repr

/-- What the backend reports about an object (`minio.ObjectInfo`). -/
structure ObjectInfo where
  Key : String
  Size : Nat
  Err : Option GoError
  deriving DecidableEq, Repr

/-- An open read stream on an object (`*minio.Object`). -/
structure Object where
  bucket : String
  object : String
  deriving DecidableEq, Repr

/-- The method `PutObject(ctx, bucket, object, reader, objectSize, opts)`: the
backend stores the first `objectSize` bytes of the reader, and refuses a
reader that ends before. -/
def PutObject (bucket object : String) (reader : Bytes) (objectSize : Nat)
    (_opts : PutObjectOptions) (w : World) : Option GoError × World :=
  let w1 := w.log (.putObject bucket object objectSize)
  match w.faults (.putObject bucket object objectSize) with
  | some e => (some e, w1)
  | none =>
    if reader.length < objectSize then (some (.base "unexpected EOF"), w1)
    else (none, { w1 with
      objects := storePut w.objects (bucket, object) (reader.take objectSize) })

/-- The method `GetObject(ctx, bucket, object, opts)`: it opens the stream; the
object is looked up when the stream is read. -/
def GetObject (bucket object : String) (w : World) : Except GoError Object × World :=
  let w1 := w.log (.getObject bucket object)
  match w.faults (.getObject bucket object) with
  | some e => (.error e, w1)
  | none => (.ok ⟨bucket, object⟩, w1)

/-- Reading a stream to its end: the bytes delivered and the error, if any
(the end of the stream is not an error). A failing read still delivers
`shortRead` bytes. -/
def Object.readAll (o : Object) (w : World) : (Bytes × Option GoError) × World :=
  let w1 := w.log (.objRead o.bucket o.object)
  match w.faults (.objRead o.bucket o.object) with
  | some e =>
    ((((w.object? o.bucket o.object).getD []).take (w.shortRead o.bucket o.object), some e), w1)
  | none =>
    match w.object? o.bucket o.object with
    | some data => ((data, none), w1)
    | none => (([], some (.base noSuchKeyMessage)), w1)

/-- The method `Close()` of a stream: the error it returns, if any, and the
world after it. -/
def Object.Close (o : Object) (w : World) : Option GoError × World :=
  (w.faults (.objClose o.bucket o.object), w.log (.objClose o.bucket o.object))

/-- The method `StatObject(ctx, bucket, object, opts)`. -/
def StatObject (bucket object : String) (w : World) : Except GoError ObjectInfo × World :=
  let w1 := w.log (.statObject bucket object)
  match w.faults (.statObject bucket object) with
  | some e => (.error e, w1)
  | none =>
    match w.object? bucket object with
    | some data => (.ok ⟨object, data.length, none⟩, w1)
    | none => (.error (.base noSuchKeyMessage), w1)

/-- The method `FGetObject(ctx, bucket, object, filePath, opts)`: a file path
that names a directory is refused; the missing directories above the file are
created with mode 0700; then the object is requested and its bytes are left
in the local file. -/
def FGetObject (bucket object filePath : String) (w : World) : Option GoError × World :=
  let w1 := w.log (.fGetObject bucket object filePath)
  if w.resolvesToDir filePath then (some (.base "fileName is a directory."), w1)
  else
    match (match objectDir filePath with
      | none => Except.ok w.dirs
      | some d => mkdirAllDirs d 0o700 w) with
    | .error e => (some e, w1)
    | .ok dirs1 =>
      match w.faults (.fGetObject bucket object filePath) with
      | some e => (some e, { w1 with dirs := dirs1 })
      | none =>
        match w.object? bucket object with
        | none => (some (.base noSuchKeyMessage), { w1 with dirs := dirs1 })
        | some data =>
          (none, { w1 with
            dirs := dirs1,
            files := fun p => if p = filePath then some data else w.files p })

/-- The options of a listing (`minio.ListObjectsOptions`). -/
structure ListObjectsOptions where
  Prefix : String
  Recursive : Bool
  deriving DecidableEq, Repr

/-- The method `ListObjects(ctx, bucket, opts)`, in the recursive mode the
program uses: one record per object of the bucket whose key starts with the
given start of key; a failing listing delivers one record that carries the
error. The channel is represented by the list of what it delivers. -/
def ListObjects (bucket : String) (opts : ListObjectsOptions) (w : World) :
    List ObjectInfo × World :=
  let w1 := w.log (.listObjects bucket opts.Prefix opts.Recursive)
  match w.faults (.listObjects bucket opts.Prefix opts.Recursive) with
  | some e => ([⟨"", 0, some e⟩], w1)
  | none =>
    (((w.objects.filter
        (fun e => e.1.1 == bucket && opts.Prefix.data.isPrefixOf e.1.2.data)).map
        (fun e => (⟨e.1.2, e.2.length, none⟩ : ObjectInfo))), w1)

/-- The call `io.Copy(dst, src)` from a stream into a file: the stream is read
to its end and what it delivers is written; nothing is written when the
stream delivers nothing. The result is the number of bytes written and the
first error met. -/
def ioCopy (dst : File) (src : Object) (w : World) : (Nat × Option GoError) × World :=
  match src.readAll w with
  | ((data, rerr), w1) =>
    if data.isEmpty then ((0, rerr), w1)
    else
      match dst.Write data w1 with
      | ((n, some werr), w2) => ((n, some werr), w2)
      | ((n, none), w2) => ((n, rerr), w2)

/-! ## The client -/

/-- The struct `StoreClient`. -/
structure StoreClient where
  Client : MinioClient
  Bucket : String
  deriving DecidableEq, Repr

/-- The outcome of a method with a pointer receiver: the values it returns,
the receiver after the call, the world after the call. -/
structure Ret (α : Type) where
  val : α
  client : StoreClient
  world : World

/-- The variable `doesNotExist`: unexported and never assigned. -/
def doesNotExist : String := "The specified key does not exist."

/-- The function `NewClientWithBucket`. A failure returns the error alone (the
zero `StoreClient{}` that goes with it in the source carries nothing). -/
def NewClientWithBucket (endpoint accessKeyID secretAccessKey bucket : String) (w : World) :
    Except GoError StoreClient :=
  let useSSL := true
  match minioNew endpoint accessKeyID secretAccessKey useSSL w with
  | .error err => .error (fmtErrorf "NewOSWithBucket: " err)
  | .ok minioClient => .ok ⟨minioClient, bucket⟩

/-- The method `Download`. -/
def Download (s : StoreClient) (object destdir filename : String) (w : World) :
    Ret (Option GoError) :=
  match osMkdirAll destdir 0o755 w with
  | (some err, w1) => ⟨some err, s, w1⟩
  | (none, w1) =>
    match FGetObject s.Bucket object (destdir ++ "/" ++ filename) w1 with
    | (err, w2) => ⟨err, s, w2⟩

/-- The method `ListObjs`. -/
def ListObjs (s : StoreClient) (pfx : String) (w : World) : Ret (List ObjectInfo) :=
  match ListObjects s.Bucket ⟨pfx, true⟩ w with
  | (objectCh, w1) => ⟨objectCh, s, w1⟩

/-- The method `PutFile`. The deferred `object.Close()` runs on every return
after the file was opened, and what it returns is dropped. -/
def PutFile (s : StoreClient) (path name : String) (options : PutObjectOptions) (w : World) :
    Ret (Option GoError) :=
  match osOpen path w with
  | (.error err, w1) => ⟨some (fmtErrorf "PutFile(): " err), s, w1⟩
  | (.ok object, w1) =>
    match object.Stat w1 with
    | (.error err, w2) => ⟨some (fmtErrorf "PutFile(): " err), s, (object.Close w2).2⟩
    | (.ok objectStat, w2) =>
      match PutObject s.Bucket name (object.contents w2) objectStat.Size options w2 with
      | (some err, w3) => ⟨some (fmtErrorf "PutFile(): " err), s, (object.Close w3).2⟩
      | (none, w3) => ⟨none, s, (object.Close w3).2⟩

/-- The method `PutS3ObjectBytes`: `bytes.NewReader(bytebufr)` delivers the
buffer and its `Size()` is the buffer's length. -/
def PutS3ObjectBytes (s : StoreClient) (objectName : String) (bytebufr : Bytes)
    (options : PutObjectOptions) (w : World) : Ret (Option GoError) :=
  let reader := bytebufr
  match PutObject s.Bucket objectName reader reader.length options w with
  | (some err, w1) => ⟨some (fmtErrorf "PutS3ObjectBytes(): " err), s, w1⟩
  | (none, w1) => ⟨none, s, w1⟩

/-- The method `GetS3ObjectBytes`: `buf.ReadFrom(obj)` reads the stream to
its end, and the method returns `buf.Bytes()` with the error of the read;
what the deferred `obj.Close()` returns is dropped. -/
def GetS3ObjectBytes (s : StoreClient) (objectName : String) (w : World) :
    Ret (Bytes × Option GoError) :=
  match GetObject s.Bucket objectName w with
  | (.error err, w1) => ⟨([], some (fmtErrorf "" err)), s, w1⟩
  | (.ok obj, w1) =>
    match obj.readAll w1 with
    | ((buf, err), w2) => ⟨(buf, err), s, (obj.Close w2).2⟩

/-- The method `ObjectExists`. -/
def ObjectExists (s : StoreClient) (name : String) (w : World) : Ret (Bool × Option GoError) :=
  match StatObject s.Bucket name w with
  | (.error err, w1) =>
    if err.Error = doesNotExist then ⟨(false, none), s, w1⟩
    else ⟨(false, some (errorsWrap err "error stating object")), s, w1⟩
  | (.ok _, w1) => ⟨(true, none), s, w1⟩

/-- The text `fmt.Printf("The file is %d bytes long", n)` prints. -/
def fileSizeLine (n : Nat) : String :=
  "The file is " ++ toString n ++ " bytes long"

/-- The error `fmt.Errorf("DownloadObj file is zero bytes")`. -/
def zeroBytesError : GoError := .errorf "DownloadObj file is zero bytes"

/-- The method `DownloadObj`. The deferred calls run last in, first out:
`localFile.Close()` before `obj.Close()`, and what they return is dropped. -/
def DownloadObj (s : StoreClient) (objectName outPath : String) (w : World) :
    Ret (Option GoError) :=
  match GetObject s.Bucket objectName w with
  | (.error err, w1) => ⟨some (fmtErrorf "DownloadObj.GetObject(): " err), s, w1⟩
  | (.ok obj, w1) =>
    match osCreate outPath w1 with
    | (.error err, w2) => ⟨some (fmtErrorf "DownloadObj.Create(): " err), s, (obj.Close w2).2⟩
    | (.ok localFile, w2) =>
      match ioCopy localFile obj w2 with
      | ((_, some err), w3) =>
        ⟨some (fmtErrorf "DownloadObj.Copy(): " err), s, (obj.Close (localFile.Close w3).2).2⟩
      | ((_, none), w3) =>
        match localFile.Stat w3 with
        | (.error err, w4) =>
          ⟨some (fmtErrorf "DownloadObj.Stat(): " err), s, (obj.Close (localFile.Close w4).2).2⟩
        | (.ok fi, w4) =>
          if fi.Size = 0 then ⟨some zeroBytesError, s, (obj.Close (localFile.Close w4).2).2⟩
          else
            ⟨none, s, (obj.Close (localFile.Close
              { w4 with stdout := w4.stdout ++ [fileSizeLine fi.Size] }).2).2⟩

/-- The method `Object2Tempfile`. The handle `f` of the temp file is never
closed; `localFile` is a second handle on the same name; what the deferred
`Close()` calls return is dropped. -/
def Object2Tempfile (s : StoreClient) (objectName : String) (w : World) :
    Ret (String × Option GoError) :=
  match osCreateTemp "/tmp" "object-" w with
  | (.error err, w1) => ⟨("", some (fmtErrorf "Object2Tempfile.CreateTem(): " err)), s, w1⟩
  | (.ok f, w1) =>
    match GetObject s.Bucket objectName w1 with
    | (.error err, w2) => ⟨("", some (fmtErrorf "Object2Tempfile.GetObject(): " err)), s, w2⟩
    | (.ok obj, w2) =>
      match osCreate f.Name w2 with
      | (.error err, w3) =>
        ⟨("", some (fmtErrorf "Object2Tempfile.Create(): " err)), s, (obj.Close w3).2⟩
      | (.ok localFile, w3) =>
        match ioCopy localFile obj w3 with
        | ((_, some err), w4) =>
          ⟨("", some (fmtErrorf "Object2Tempfile.Copy(): " err)), s,
            (obj.Close (localFile.Close w4).2).2⟩
        | ((_, none), w4) => ⟨(f.Name, none), s, (obj.Close (localFile.Close w4).2).2⟩

/-- The method `Object2Filehandle`: its body is empty. -/
def Object2Filehandle (_s : StoreClient) (_object : String) (w : World) : World := w

/-- Between the worlds `w` and `w1` library calls were only added to the
trace, and every backend request among them is addressed to `bucket`. -/
def OnlyBucket (bucket : String) (w w1 : World) : Prop :=
  ∃ calls, w1.trace = w.trace ++ calls ∧ ∀ c, c ∈ calls → ∀ b, c.bucket? = some b → b = bucket

/-! ## Concrete worlds and clients used as examples -/

/-- A world with an empty backend, an empty filesystem but for `/tmp`, and no
failing call. -/
def world0 : World :=
  { objects := [], files := fun _ => none,
    dirs := fun p => if p = "/tmp" then some 0o1777 else none,
    randoms := ["1", "2"], faults := fun _ => none,
    shortRead := fun _ _ => 0, shortWrite := fun _ => 0, trace := [], stdout := [] }

/-- A client bound to the bucket `bkt`. -/
def client0 : StoreClient := ⟨⟨"s3.example.org", "ak", "sk", true⟩, "bkt"⟩

/-- Upload options. -/
def options0 : PutObjectOptions := ⟨"application/octet-stream", []⟩

/-- The world `world0` with one object `k` of three bytes in the bucket `bkt`. -/
def worldWithObject : World := { world0 with objects := [(("bkt", "k"), [1, 2, 3])] }

/-- The world `w` in which the library call `c` fails with the error `e`. -/
def World.failing (w : World) (c : Call) (e : GoError) : World :=
  { w with faults := fun c1 => if c1 = c then some e else w.faults c1 }

/-- The world `world0` with one empty object `e` in the bucket `bkt`. -/
def worldWithEmptyObject : World := { world0 with objects := [(("bkt", "e"), [])] }

/-- The world `world0` with a local file `/in` of two bytes. -/
def worldWithFile : World :=
  { world0 with files := fun p => if p = "/in" then some [7, 8] else none }

/-- The world `world0` with an empty local file `/in`. -/
def worldWithEmptyFile : World :=
  { world0 with files := fun p => if p = "/in" then some [] else none }

/-! ## Existence check -/

/-- C1: `ObjectExists` returns (true, nil) when the stat request returns
metadata, (false, nil) when it fails with an error whose message is exactly
the not-found text, and (false, the backend's error wrapped with "error
stating object") for every other failure; it never returns true together
with an error. Over the model backend without failing calls, a key that is
present gives (true, nil) and a key that is absent gives (false, nil). -/
theorem objectExists_classifies (s : StoreClient) (name : String) (w : World) :
    (∀ info w1, StatObject s.Bucket name w = (.ok info, w1) →
      (ObjectExists s name w).val = (true, none)) ∧
    (∀ err w1, StatObject s.Bucket name w = (.error err, w1) →
      err.Error = "The specified key does not exist." →
      (ObjectExists s name w).val = (false, none)) ∧
    (∀ err w1, StatObject s.Bucket name w = (.error err, w1) →
      err.Error ≠ "The specified key does not exist." →
      (ObjectExists s name w).val = (false, some (GoError.wrap err "error stating object"))) ∧
    (∀ e, (ObjectExists s name w).val ≠ (true, some e)) ∧
    (w.faults (.statObject s.Bucket name) = none →
      (ObjectExists s name w).val = ((w.object? s.Bucket name).isSome, none)) := by
  refine ⟨?_, ?_, ?_, ?_, ?_⟩
  · intro info w1 h
    simp [ObjectExists, h]
  · intro err w1 h hmsg
    simp [ObjectExists, h, hmsg, doesNotExist]
  · intro err w1 h hmsg
    simp [ObjectExists, h, hmsg, doesNotExist, errorsWrap]
  · intro e
    unfold ObjectExists
    split
    · split <;> simp
    · simp
  · intro hf
    unfold ObjectExists StatObject
    simp only [hf]
    cases hobj : w.object? s.Bucket name <;> simp [GoError.Error, noSuchKeyMessage, doesNotExist]

/-- C1 at concrete worlds: a present key, an absent key, a refused request. -/
theorem objectExists_classifies_witness :
    (ObjectExists client0 "k" worldWithObject).val = (true, none) ∧
    (ObjectExists client0 "k" world0).val = (false, none) ∧
    (ObjectExists client0 "k"
        (world0.failing (.statObject "bkt" "k") (.base "Access Denied."))).val
      = (false, some (.wrap (.base "Access Denied.") "error stating object")) :=
  ⟨(objectExists_classifies client0 "k" worldWithObject).1 _ _ rfl,
   (objectExists_classifies client0 "k" world0).2.1 _ _ rfl (by decide),
   (objectExists_classifies client0 "k"
      (world0.failing (.statObject "bkt" "k") (.base "Access Denied."))).2.2.1 _ _ rfl
      (by decide)⟩

/-! ## What the library calls do to the world -/

theorem log_files (w : World) (c : Call) : (w.log c).files = w.files := rfl

theorem log_dirs (w : World) (c : Call) : (w.log c).dirs = w.dirs := rfl

theorem log_objects (w : World) (c : Call) : (w.log c).objects = w.objects := rfl

theorem log_faults (w : World) (c : Call) : (w.log c).faults = w.faults := rfl

theorem log_trace (w : World) (c : Call) : (w.log c).trace = w.trace ++ [c] := rfl

theorem log_object? (w : World) (c : Call) (b k : String) :
    (w.log c).object? b k = w.object? b k := rfl

theorem fileClose_files (f : File) (w : World) : (f.Close w).2.files = w.files := rfl

theorem objClose_files (o : Object) (w : World) : (o.Close w).2.files = w.files := rfl

/-- A successful `os.Create` returns a handle on the given name and leaves
an empty file there. -/
theorem osCreate_ok {name : String} {w w1 : World} {f : File}
    (h : osCreate name w = (.ok f, w1)) :
    f.name = name ∧ w.faults (.osCreate name) = none ∧
    w1 = { w.log (.osCreate name) with
      files := fun p => if p = name then some [] else w.files p } := by
  unfold osCreate at h
  cases hf : w.faults (.osCreate name) with
  | some e => simp [hf] at h
  | none =>
    simp only [hf] at h
    split at h
    · simp at h
    · simp only [Prod.mk.injEq, Except.ok.injEq] at h
      obtain ⟨h1, h2⟩ := h
      subst h1
      exact ⟨rfl, rfl, h2.symm⟩

/-- A successful `Stat` reports the length of the file's content. -/
theorem fileStat_ok {f : File} {w w1 : World} {fi : FileInfo}
    (h : f.Stat w = (.ok fi, w1)) :
    ∃ c, w.files f.name = some c ∧ fi.Size = c.length ∧ w1 = w.log (.fileStat f.name) := by
  unfold File.Stat at h
  cases hf : w.faults (.fileStat f.name) with
  | some e => simp [hf] at h
  | none =>
    simp only [hf] at h
    cases hc : w.files f.name with
    | none => simp [hc] at h
    | some c =>
      simp only [hc, Prod.mk.injEq, Except.ok.injEq] at h
      obtain ⟨h1, h2⟩ := h
      subst h1
      exact ⟨c, rfl, rfl, h2.symm⟩

/-- The outcome of `Stat` on a file that exists: the injected failure, or the size. -/
theorem fileStat_of_exists {f : File} {w : World} {c : Bytes} (hc : w.files f.name = some c) :
    f.Stat w = (match w.faults (.fileStat f.name) with
      | some e => (.error e, w.log (.fileStat f.name))
      | none => (.ok ⟨c.length⟩, w.log (.fileStat f.name))) := by
  unfold File.Stat
  cases hf : w.faults (.fileStat f.name) <;> simp [hc]

/-! ## Download to a named file -/

/-- C2: when `DownloadObj` opens the stream, creates the local file and
copies without error, and the size it reads of the written file is zero, it
returns the zero-byte error; when the file left at the output path is empty
it returns a non-nil error in any case (the zero-byte error, or the error of
reading the size when that fails); and it returns no error only if the file
written at the output path has a non-zero size. -/
theorem downloadObj_zero_bytes (s : StoreClient) (objectName outPath : String) (w : World) :
    (∀ obj w1 localFile w2 n w3 fi w4,
      GetObject s.Bucket objectName w = (.ok obj, w1) →
      osCreate outPath w1 = (.ok localFile, w2) →
      ioCopy localFile obj w2 = ((n, none), w3) →
      localFile.Stat w3 = (.ok fi, w4) → fi.Size = 0 →
      (DownloadObj s objectName outPath w).val
        = some (GoError.errorf "DownloadObj file is zero bytes")) ∧
    (∀ obj w1 localFile w2 n w3,
      GetObject s.Bucket objectName w = (.ok obj, w1) →
      osCreate outPath w1 = (.ok localFile, w2) →
      ioCopy localFile obj w2 = ((n, none), w3) →
      w3.files outPath = some [] →
      (DownloadObj s objectName outPath w).val ≠ none ∧
      (w3.faults (.fileStat outPath) = none →
        (DownloadObj s objectName outPath w).val
          = some (GoError.errorf "DownloadObj file is zero bytes"))) ∧
    ((DownloadObj s objectName outPath w).val = none →
      ∃ c, (DownloadObj s objectName outPath w).world.files outPath = some c ∧
        c.length ≠ 0) := by
  refine ⟨?_, ?_, ?_⟩
  · intro obj w1 localFile w2 n w3 fi w4 h1 h2 h3 h4 hz
    simp [DownloadObj, h1, h2, h3, h4, hz, zeroBytesError]
  · intro obj w1 localFile w2 n w3 h1 h2 h3 h4
    have hname : localFile.name = outPath := (osCreate_ok h2).1
    have hc : w3.files localFile.name = some [] := by rw [hname]; exact h4
    have hstat := fileStat_of_exists hc
    rw [hname] at hstat
    cases hf : w3.faults (.fileStat outPath) with
    | some e =>
      simp only [hf] at hstat
      simp [DownloadObj, h1, h2, h3, hstat]
    | none =>
      simp only [hf] at hstat
      simp [DownloadObj, h1, h2, h3, hstat, FileInfo.Size, zeroBytesError]
  · intro h
    unfold DownloadObj at h ⊢
    split at h
    · simp at h
    · rename_i obj w1 h1
      split at h
      · simp at h
      · rename_i localFile w2 h2
        split at h
        · simp at h
        · rename_i n w3 h3
          split at h
          · simp at h
          · rename_i fi w4 h4
            obtain ⟨c, hc, hsz, hw4⟩ := fileStat_ok h4
            have hname : localFile.name = outPath := (osCreate_ok h2).1
            by_cases hz : fi.Size = 0
            · simp [hz] at h
            · simp only [hz, if_false]
              refine ⟨c, ?_, ?_⟩
              · rw [objClose_files, fileClose_files]
                simp only [hw4, log_files]
                rw [← hname]; exact hc
              · rw [← hsz]; exact hz

/-- C2 at concrete worlds: an empty object gives the zero-byte error, and a
download that returns no error leaves a non-empty file. -/
theorem downloadObj_zero_bytes_witness :
    (DownloadObj client0 "e" "/out" worldWithEmptyObject).val
      = some (.errorf "DownloadObj file is zero bytes") ∧
    ∃ c, (DownloadObj client0 "k" "/out" worldWithObject).world.files "/out" = some c ∧
      c.length ≠ 0 :=
  ⟨(downloadObj_zero_bytes client0 "e" "/out" worldWithEmptyObject).1
      _ _ _ _ _ _ _ _ rfl rfl rfl rfl rfl,
   (downloadObj_zero_bytes client0 "k" "/out" worldWithObject).2.2 rfl⟩

/-! ## Round trips -/

theorem lookup_storePut (objs : List ((String × String) × Bytes)) (k : String × String)
    (v : Bytes) : (storePut objs k v).lookup k = some v := by
  simp [storePut, List.lookup]

/-- C3: over the model backend without failing calls, `PutS3ObjectBytes(K, B)`
returns no error, declares the length of `B` in its one upload request,
leaves `B` under `K`, and `GetS3ObjectBytes(K)` then returns exactly `B` with
no error, for every buffer `B`, the empty one included. -/
theorem putBytes_getBytes_roundtrip (s : StoreClient) (K : String) (B : Bytes)
    (options : PutObjectOptions) (w : World) (hff : w.FaultFree) :
    (PutS3ObjectBytes s K B options w).val = none ∧
    (PutS3ObjectBytes s K B options w).world.trace
      = w.trace ++ [Call.putObject s.Bucket K B.length] ∧
    (PutS3ObjectBytes s K B options w).world.object? s.Bucket K = some B ∧
    (GetS3ObjectBytes (PutS3ObjectBytes s K B options w).client K
      (PutS3ObjectBytes s K B options w).world).val = (B, none) := by
  have hput : PutS3ObjectBytes s K B options w
      = ⟨none, s, { w.log (.putObject s.Bucket K B.length) with
          objects := storePut w.objects (s.Bucket, K) B }⟩ := by
    simp [PutS3ObjectBytes, PutObject, hff (.putObject s.Bucket K B.length)]
  rw [hput]
  refine ⟨rfl, rfl, ?_, ?_⟩
  · simp [World.object?, lookup_storePut]
  · simp [GetS3ObjectBytes, GetObject, Object.readAll, World.log, World.object?,
      lookup_storePut, hff (.getObject s.Bucket K), hff (.objRead s.Bucket K)]

/-- C3 at the empty buffer. -/
theorem putBytes_getBytes_roundtrip_witness :
    (∀ c, world0.faults c = none) ∧
    (GetS3ObjectBytes (PutS3ObjectBytes client0 "k" [] options0 world0).client "k"
      (PutS3ObjectBytes client0 "k" [] options0 world0).world).val = ([], none) :=
  ⟨fun _ => rfl,
   (putBytes_getBytes_roundtrip client0 "k" [] options0 world0 (fun _ => rfl)).2.2.2⟩

/-- Nothing exists at a path: neither a file nor a directory. -/
theorem pathExists_false {w : World} {p : String} (h : w.pathExists p = false) :
    w.files p = none ∧ w.dirs p = none := by
  unfold World.pathExists at h
  cases hf : w.files p <;> cases hd : w.dirs p <;> simp [hf, hd] at h ⊢

/-- C4: over the model backend and the model filesystem without failing
calls, for a local file `F` and a path `P` at which nothing exists yet,
`PutFile(F, K)` returns no error; then `DownloadObj(K, P)` returns no error
and leaves at `P` the bytes of `F` (and `F` untouched) when `F` is not empty,
and returns the zero-byte error when `F` is empty. -/
theorem putFile_downloadObj_roundtrip (s : StoreClient) (F K P : String)
    (options : PutObjectOptions) (content : Bytes) (w : World)
    (hff : w.FaultFree) (hF : w.files F = some content) (hP : w.pathExists P = false) :
    (PutFile s F K options w).val = none ∧
    (content ≠ [] →
      (DownloadObj (PutFile s F K options w).client K P (PutFile s F K options w).world).val
        = none ∧
      (DownloadObj (PutFile s F K options w).client K P
        (PutFile s F K options w).world).world.files P = some content ∧
      (DownloadObj (PutFile s F K options w).client K P
        (PutFile s F K options w).world).world.files F = some content) ∧
    (content = [] →
      (DownloadObj (PutFile s F K options w).client K P (PutFile s F K options w).world).val
        = some (GoError.errorf "DownloadObj file is zero bytes")) := by
  obtain ⟨hPf, hPd⟩ := pathExists_false hP
  have hFP : F ≠ P := by
    intro h
    rw [h, hPf] at hF
    simp at hF
  have hput : PutFile s F K options w
      = ⟨none, s, (File.Close ⟨F⟩
          { (w.log (.osOpen F)).log (.fileStat F) |>.log (.putObject s.Bucket K content.length)
            with objects := storePut w.objects (s.Bucket, K) content }).2⟩ := by
    simp [PutFile, osOpen, File.Stat, PutObject, File.contents, FileInfo.Size, World.log,
      World.fileExists, hF, hff (.osOpen F), hff (.fileStat F),
      hff (.putObject s.Bucket K content.length)]
  rw [hput]
  refine ⟨rfl, ?_, ?_⟩
  · intro hne
    have hlen : content.length ≠ 0 := by
      intro h0
      exact hne (List.length_eq_zero.mp h0)
    have hemp : content.isEmpty = false := by
      cases content with
      | nil => exact absurd rfl hne
      | cons a l => rfl
    simp [DownloadObj, GetObject, osCreate, ioCopy, Object.readAll, File.Write, File.Stat,
      File.Close, Object.Close, File.contents, FileInfo.Size, World.log, World.object?,
      World.isDir, writeAt0, lookup_storePut, hPd, hF, hFP, hlen, hemp,
      hff (.getObject s.Bucket K), hff (.osCreate P), hff (.objRead s.Bucket K),
      hff (.fileWrite P), hff (.fileStat P)]
  · intro he
    subst he
    simp [DownloadObj, GetObject, osCreate, ioCopy, Object.readAll, File.Write, File.Stat,
      File.Close, Object.Close, File.contents, FileInfo.Size, World.log, World.object?,
      World.isDir, writeAt0, lookup_storePut, hPd, zeroBytesError,
      hff (.getObject s.Bucket K), hff (.osCreate P), hff (.objRead s.Bucket K),
      hff (.fileWrite P), hff (.fileStat P)]

/-- C4 at a file of two bytes and at an empty file. -/
theorem putFile_downloadObj_roundtrip_witness :
    (DownloadObj client0 "k" "/out" (PutFile client0 "/in" "k" options0 worldWithFile).world
      ).world.files "/out" = some [7, 8] ∧
    (DownloadObj client0 "k" "/out"
      (PutFile client0 "/in" "k" options0 worldWithEmptyFile).world).val
      = some (.errorf "DownloadObj file is zero bytes") :=
  ⟨((putFile_downloadObj_roundtrip client0 "/in" "k" "/out" options0 [7, 8] worldWithFile
      (fun _ => rfl) rfl rfl).2.1 (by decide)).2.1,
   (putFile_downloadObj_roundtrip client0 "/in" "k" "/out" options0 [] worldWithEmptyFile
      (fun _ => rfl) rfl rfl).2.2 rfl⟩

/-! ## Download to a temp file -/

/-- The name `freshName` picks is free and is built from one of the random parts. -/
theorem freshName_some (w : World) (dir pattern : String) :
    ∀ (rs : List String) (name : String) (rest : List String),
      freshName w dir pattern rs = some (name, rest) →
      w.pathExists name = false ∧ ∃ r, r ∈ rs ∧ name = dir ++ "/" ++ pattern ++ r := by
  intro rs
  induction rs with
  | nil => intro name rest h; simp [freshName] at h
  | cons r rs ih =>
    intro name rest h
    unfold freshName at h
    by_cases hex : w.pathExists (dir ++ "/" ++ pattern ++ r) = true
    · rw [if_pos hex] at h
      obtain ⟨h1, r1, hr1, h2⟩ := ih name rest h
      exact ⟨h1, r1, List.mem_cons_of_mem _ hr1, h2⟩
    · rw [if_neg hex] at h
      simp only [Option.some.injEq, Prod.mk.injEq] at h
      obtain ⟨h1, _⟩ := h
      subst h1
      exact ⟨by simpa using hex, r, List.mem_cons_self _ _, rfl⟩

/-- A successful `os.CreateTemp` picks a name at which nothing existed, built
from the directory, the pattern and a random part, and leaves an empty file
there; the backend is untouched. -/
theorem osCreateTemp_ok {dir pattern : String} {w w1 : World} {f : File}
    (h : osCreateTemp dir pattern w = (.ok f, w1)) :
    w.pathExists f.name = false ∧
    (∃ r, r ∈ w.randoms ∧ f.name = dir ++ "/" ++ pattern ++ r) ∧
    w1.files = (fun p => if p = f.name then some [] else w.files p) ∧
    w1.objects = w.objects ∧ w1.dirs = w.dirs := by
  unfold osCreateTemp at h
  cases hf : w.faults (.osCreateTemp dir pattern) with
  | some e => simp [hf] at h
  | none =>
    simp only [hf] at h
    cases hn : freshName w dir pattern (w.randoms.take 10000) with
    | none => simp [hn] at h
    | some nr =>
      obtain ⟨name, rest⟩ := nr
      simp only [hn, Prod.mk.injEq, Except.ok.injEq] at h
      obtain ⟨h1, h2⟩ := h
      subst h1
      subst h2
      obtain ⟨hfree, r, hr, hname⟩ := freshName_some w dir pattern _ _ _ hn
      exact ⟨hfree, ⟨r, List.mem_of_mem_take hr, hname⟩, rfl, rfl, rfl⟩

/-- A successful `GetObject` returns a stream on the requested object and
only records the request. -/
theorem getObject_ok {bucket object : String} {w w1 : World} {obj : Object}
    (h : GetObject bucket object w = (.ok obj, w1)) :
    obj = ⟨bucket, object⟩ ∧ w1 = w.log (.getObject bucket object) := by
  unfold GetObject at h
  cases hf : w.faults (.getObject bucket object) with
  | some e => simp [hf] at h
  | none =>
    simp only [hf, Prod.mk.injEq, Except.ok.injEq] at h
    exact ⟨h.1.symm, h.2.symm⟩

/-- A failing `GetObject` only records the request. -/
theorem getObject_world (bucket object : String) (w : World) :
    (GetObject bucket object w).2 = w.log (.getObject bucket object) := by
  unfold GetObject
  cases hf : w.faults (.getObject bucket object) <;> rfl

/-- Whatever its outcome, `os.Create` leaves every existing file in existence. -/
theorem osCreate_fileExists (name : String) (w : World) (p : String)
    (hp : w.fileExists p = true) : (osCreate name w).2.fileExists p = true := by
  unfold osCreate
  cases hf : w.faults (.osCreate name) with
  | some e => exact hp
  | none =>
    simp only
    split
    · exact hp
    · simp only [World.fileExists]
      by_cases hpn : p = name
      · simp [hpn]
      · simp only [hpn, if_false]; exact hp

/-- Whatever its outcome, a write leaves every existing file in existence. -/
theorem fileWrite_fileExists (f : File) (data : Bytes) (w : World) (p : String)
    (hp : w.fileExists p = true) : (f.Write data w).2.fileExists p = true := by
  unfold File.Write
  cases hf : w.faults (.fileWrite f.name) with
  | some e =>
    simp only [World.fileExists]
    by_cases hpn : p = f.name
    · simp [hpn]
    · simp only [hpn, if_false]; exact hp
  | none =>
    simp only [World.fileExists]
    by_cases hpn : p = f.name
    · simp [hpn]
    · simp only [hpn, if_false]; exact hp

/-- Whatever its outcome, `io.Copy` leaves every existing file in existence. -/
theorem ioCopy_fileExists (dst : File) (src : Object) (w : World) (p : String)
    (hp : w.fileExists p = true) : (ioCopy dst src w).2.fileExists p = true := by
  unfold ioCopy
  rcases hr : src.readAll w with ⟨⟨data, rerr⟩, w1⟩
  have hw1 : w1.fileExists p = true := by
    have : w1 = (src.readAll w).2 := by rw [hr]
    rw [this]
    unfold Object.readAll
    cases hf : w.faults (.objRead src.bucket src.object) with
    | some e => exact hp
    | none =>
      simp only
      cases ho : w.object? src.bucket src.object <;> exact hp
  simp only
  by_cases he : data.isEmpty = true
  · simp only [he, if_true]; exact hw1
  · simp only [he]
    have hw := fileWrite_fileExists dst data w1 p hw1
    rcases hwr : dst.Write data w1 with ⟨⟨n, werr⟩, w2⟩
    rw [hwr] at hw
    cases werr <;> exact hw

/-- A copy without error into an empty file leaves there the bytes of the
object, which exists. -/
theorem ioCopy_ok {dst : File} {src : Object} {w w1 : World} {n : Nat}
    (h : ioCopy dst src w = ((n, none), w1)) (hempty : w.files dst.name = some []) :
    ∃ data, w.object? src.bucket src.object = some data ∧ w1.files dst.name = some data := by
  unfold ioCopy Object.readAll at h
  cases hf : w.faults (.objRead src.bucket src.object) with
  | some e =>
    simp only [hf] at h
    split at h
    · simp at h
    · unfold File.Write at h
      split at h <;> simp at h
  | none =>
    simp only [hf] at h
    cases ho : w.object? src.bucket src.object with
    | none => simp [ho] at h
    | some data =>
      simp only [ho] at h
      refine ⟨data, rfl, ?_⟩
      by_cases he : data.isEmpty = true
      · simp only [he, if_true, Prod.mk.injEq] at h
        rw [← h.2, log_files, hempty]
        have : data = [] := List.isEmpty_iff.mp he
        rw [this]
      · simp only [he, Bool.false_eq_true, if_false] at h
        unfold File.Write at h
        cases hfw : (w.log (.objRead src.bucket src.object)).faults (.fileWrite dst.name) with
        | some e => simp [hfw] at h
        | none =>
          simp only [hfw, Prod.mk.injEq] at h
          rw [← h.2]
          simp [File.contents, log_files, hempty, writeAt0]

/-- C5: for an object that exists in the backend, when the creation of the
temp file, the opening of the stream, the re-creation of the file and the
copy all succeed, `Object2Tempfile` returns no error and the path of the temp
file it created: a name `/tmp/object-<random>` at which nothing existed
before, at which a file exists afterwards, and whose content is the
object's content. -/
theorem object2Tempfile_success (s : StoreClient) (objectName : String) (w : World)
    (content : Bytes) (f : File) (w1 : World) (obj : Object) (w2 : World)
    (localFile : File) (w3 : World) (n : Nat) (w4 : World)
    (hobj : w.object? s.Bucket objectName = some content)
    (h1 : osCreateTemp "/tmp" "object-" w = (.ok f, w1))
    (h2 : GetObject s.Bucket objectName w1 = (.ok obj, w2))
    (h3 : osCreate f.Name w2 = (.ok localFile, w3))
    (h4 : ioCopy localFile obj w3 = ((n, none), w4)) :
    (Object2Tempfile s objectName w).val = (f.Name, none) ∧
    (∃ r, r ∈ w.randoms ∧ f.Name = "/tmp" ++ "/" ++ "object-" ++ r) ∧
    w.pathExists f.Name = false ∧
    (Object2Tempfile s objectName w).world.fileExists f.Name = true ∧
    (Object2Tempfile s objectName w).world.files f.Name = some content := by
  obtain ⟨hfree, hname, hfiles1, hobjs1, _⟩ := osCreateTemp_ok h1
  obtain ⟨hobjEq, hw2⟩ := getObject_ok h2
  obtain ⟨hlf, _, hw3⟩ := osCreate_ok h3
  have hempty : w3.files localFile.name = some [] := by
    rw [hw3, hlf]; simp
  obtain ⟨data, hdata, hfile4⟩ := ioCopy_ok h4 hempty
  have hdc : data = content := by
    have h5 : w3.object? obj.bucket obj.object = w.object? s.Bucket objectName := by
      rw [hw3, hobjEq, hw2]
      simp only [World.object?, World.log, hobjs1]
    rw [h5, hobj] at hdata
    exact (Option.some.inj hdata).symm
  have hfinal : (Object2Tempfile s objectName w).world.files f.Name = some content := by
    simp only [Object2Tempfile, h1, h2, h3, h4, objClose_files, fileClose_files]
    rw [← hlf, hfile4, hdc]
  refine ⟨?_, hname, hfree, ?_, hfinal⟩
  · simp [Object2Tempfile, h1, h2, h3, h4]
  · simp [World.fileExists, hfinal]

/-- C5 at a concrete world: the object `k` of `bkt` lands in `/tmp/object-1`. -/
theorem object2Tempfile_success_witness :
    (Object2Tempfile client0 "k" worldWithObject).val = ("/tmp/object-1", none) ∧
    (Object2Tempfile client0 "k" worldWithObject).world.files "/tmp/object-1"
      = some [1, 2, 3] :=
  ⟨(object2Tempfile_success client0 "k" worldWithObject [1, 2, 3] ⟨"/tmp/object-1"⟩ _ _ _ _ _
      _ _ rfl rfl rfl rfl rfl).1,
   (object2Tempfile_success client0 "k" worldWithObject [1, 2, 3] ⟨"/tmp/object-1"⟩ _ _ _ _ _
      _ _ rfl rfl rfl rfl rfl).2.2.2.2⟩

/-- C10: once `Object2Tempfile` has created its temp file, a failure of a
later stage (opening the stream, re-creating the file, copying) makes it
return the empty path, which is not the temp file's path, together with a
non-nil error, and the temp file, which did not exist before the call, still
exists after it. -/
theorem object2Tempfile_orphan (s : StoreClient) (objectName : String) (w : World)
    (f : File) (w1 : World)
    (h1 : osCreateTemp "/tmp" "object-" w = (.ok f, w1))
    (hfail :
      (∃ e w2, GetObject s.Bucket objectName w1 = (.error e, w2)) ∨
      (∃ obj w2 e w3, GetObject s.Bucket objectName w1 = (.ok obj, w2) ∧
        osCreate f.Name w2 = (.error e, w3)) ∨
      (∃ obj w2 localFile w3 n e w4, GetObject s.Bucket objectName w1 = (.ok obj, w2) ∧
        osCreate f.Name w2 = (.ok localFile, w3) ∧
        ioCopy localFile obj w3 = ((n, some e), w4))) :
    (Object2Tempfile s objectName w).val.1 = "" ∧
    (Object2Tempfile s objectName w).val.1 ≠ f.Name ∧
    (Object2Tempfile s objectName w).val.2 ≠ none ∧
    w.pathExists f.Name = false ∧
    (Object2Tempfile s objectName w).world.fileExists f.Name = true := by
  obtain ⟨hfree, ⟨r, _, hname⟩, hfiles1, _, _⟩ := osCreateTemp_ok h1
  have hne : "" ≠ f.Name := by
    intro h
    have hlen : f.Name.length = 0 := by rw [← h]; rfl
    unfold File.Name at hlen
    rw [hname] at hlen
    simp only [String.length_append] at hlen
    have : ("/tmp" : String).length = 4 := by decide
    omega
  have hex1 : w1.fileExists f.Name = true := by
    simp [World.fileExists, hfiles1, File.Name]
  rcases hfail with ⟨e, w2, h2⟩ | ⟨obj, w2, e, w3, h2, h3⟩ | ⟨obj, w2, lf, w3, n, e, w4, h2, h3, h4⟩
  · have hw2 : w2 = w1.log (.getObject s.Bucket objectName) := by
      have := getObject_world s.Bucket objectName w1
      rw [h2] at this
      exact this
    refine ⟨?_, ?_, ?_, hfree, ?_⟩
    · simp [Object2Tempfile, h1, h2]
    · simp only [Object2Tempfile, h1, h2]; exact hne
    · simp [Object2Tempfile, h1, h2]
    · simp only [Object2Tempfile, h1, h2, hw2]; exact hex1
  · have hw2 : w2 = w1.log (.getObject s.Bucket objectName) := (getObject_ok h2).2
    have hex3 : w3.fileExists f.Name = true := by
      have := osCreate_fileExists f.Name w2 f.Name (by rw [hw2]; exact hex1)
      rw [h3] at this
      exact this
    refine ⟨?_, ?_, ?_, hfree, ?_⟩
    · simp [Object2Tempfile, h1, h2, h3]
    · simp only [Object2Tempfile, h1, h2, h3]; exact hne
    · simp [Object2Tempfile, h1, h2, h3]
    · simp only [Object2Tempfile, h1, h2, h3]; exact hex3
  · have hw2 : w2 = w1.log (.getObject s.Bucket objectName) := (getObject_ok h2).2
    have hex3 : w3.fileExists f.Name = true := by
      have := osCreate_fileExists f.Name w2 f.Name (by rw [hw2]; exact hex1)
      rw [h3] at this
      exact this
    have hex4 : w4.fileExists f.Name = true := by
      have := ioCopy_fileExists lf obj w3 f.Name hex3
      rw [h4] at this
      exact this
    refine ⟨?_, ?_, ?_, hfree, ?_⟩
    · simp [Object2Tempfile, h1, h2, h3, h4]
    · simp only [Object2Tempfile, h1, h2, h3, h4]; exact hne
    · simp [Object2Tempfile, h1, h2, h3, h4]
    · simp only [Object2Tempfile, h1, h2, h3, h4]; exact hex4

/-- C10 at a concrete world: the stream cannot be opened, and `/tmp/object-1`
stays behind. -/
theorem object2Tempfile_orphan_witness :
    (Object2Tempfile client0 "k"
      (worldWithObject.failing (.getObject "bkt" "k") (.base "connection refused"))).val.1 = "" ∧
    (Object2Tempfile client0 "k"
      (worldWithObject.failing (.getObject "bkt" "k")
        (.base "connection refused"))).world.fileExists "/tmp/object-1" = true :=
  ⟨(object2Tempfile_orphan client0 "k"
      (worldWithObject.failing (.getObject "bkt" "k") (.base "connection refused"))
      ⟨"/tmp/object-1"⟩ _ rfl (Or.inl ⟨_, _, rfl⟩)).1,
   (object2Tempfile_orphan client0 "k"
      (worldWithObject.failing (.getObject "bkt" "k") (.base "connection refused"))
      ⟨"/tmp/object-1"⟩ _ rfl (Or.inl ⟨_, _, rfl⟩)).2.2.2.2⟩

/-! ## Download into a directory -/

/-- Whatever its outcome, `os.MkdirAll` records exactly its own call. -/
theorem osMkdirAll_trace (path : String) (perm : Nat) (w : World) :
    (osMkdirAll path perm w).2.trace = w.trace ++ [.mkdirAll path perm] := by
  unfold osMkdirAll
  cases hf : w.faults (.mkdirAll path perm) with
  | some e => rfl
  | none =>
    simp only
    cases hm : mkdirAllDirs path perm w <;> rfl

/-- Whatever its outcome, `os.MkdirAll` touches neither the backend nor the
regular files. -/
theorem osMkdirAll_frame (path : String) (perm : Nat) (w : World) :
    (osMkdirAll path perm w).2.objects = w.objects ∧
    (osMkdirAll path perm w).2.files = w.files := by
  unfold osMkdirAll
  cases hf : w.faults (.mkdirAll path perm) with
  | some e => exact ⟨rfl, rfl⟩
  | none =>
    simp only
    cases hm : mkdirAllDirs path perm w <;> exact ⟨rfl, rfl⟩

/-- A successful `os.MkdirAll` is a successful `mkdirAllDirs`. -/
theorem osMkdirAll_ok {path : String} {perm : Nat} {w w1 : World}
    (h : osMkdirAll path perm w = (none, w1)) :
    ∃ dirs1, mkdirAllDirs path perm w = .ok dirs1 ∧ w1.dirs = dirs1 := by
  unfold osMkdirAll at h
  cases hf : w.faults (.mkdirAll path perm) with
  | some e => simp [hf] at h
  | none =>
    simp only [hf] at h
    cases hm : mkdirAllDirs path perm w with
    | error e => simp [hm] at h
    | ok d =>
      simp only [hm, Prod.mk.injEq, true_and] at h
      exact ⟨d, rfl, by rw [← h]⟩

/-- Creating directories keeps every directory that exists, with its mode. -/
theorem mkdirAllDirs_kept {path : String} {perm : Nat} {w : World}
    {dirs1 : String → Option Nat} (h : mkdirAllDirs path perm w = .ok dirs1)
    (p : String) (m : Nat) (hp : w.dirs p = some m) : dirs1 p = some m := by
  unfold mkdirAllDirs at h
  split at h
  · simp only [Except.ok.injEq] at h
    rw [← h]; exact hp
  · split at h
    · simp at h
    · split at h
      · simp at h
      · simp only [Except.ok.injEq] at h
        rw [← h]
        simp [World.isDir, hp]

/-- A path that is a directory names a directory. -/
theorem resolvesToDir_of_dirs {w : World} {p : String} {m : Nat} (hp : w.dirs p = some m)
    (hne : p ≠ "") : w.resolvesToDir p = true := by
  simp [World.resolvesToDir, World.isDir, hp, hne]

/-- A path that names a directory still does when directories are only added. -/
theorem resolvesToDir_mono {w w1 : World} (hk : ∀ p m, w.dirs p = some m → w1.dirs p = some m)
    {p : String} (hp : w.resolvesToDir p = true) : w1.resolvesToDir p = true := by
  have hdir : ∀ q, w.isDir q = true → w1.isDir q = true := by
    intro q hq
    simp only [World.isDir] at hq ⊢
    obtain ⟨m, hm⟩ := Option.isSome_iff_exists.mp hq
    rw [hk q m hm]; rfl
  simp only [World.resolvesToDir, Bool.and_eq_true, Bool.or_eq_true] at hp ⊢
  obtain ⟨hne, hcases⟩ := hp
  refine ⟨hne, ?_⟩
  rcases hcases with ((h1 | h2) | h3) | h4
  · exact Or.inl (Or.inl (Or.inl (hdir _ h1)))
  · exact Or.inl (Or.inl (Or.inr (hdir _ h2)))
  · exact Or.inl (Or.inr h3)
  · exact Or.inr h4

/-- A successful creation of a path that named no directory: the path is not
empty, and each of its ancestors that named no directory is a directory of
the requested mode afterwards. -/
theorem mkdirAllDirs_new {path : String} {perm : Nat} {w : World}
    {dirs1 : String → Option Nat} (h : mkdirAllDirs path perm w = .ok dirs1)
    (hnew : w.resolvesToDir path = false) :
    path ≠ "" ∧
    ∀ p, p ∈ ancestors path → p ≠ "" → w.resolvesToDir p = false → dirs1 p = some perm := by
  unfold mkdirAllDirs at h
  simp only [hnew, Bool.false_eq_true, if_false] at h
  split at h
  · simp at h
  · rename_i hne
    split at h
    · simp at h
    · simp only [Except.ok.injEq] at h
      subst h
      refine ⟨hne, ?_⟩
      intro p hp hp0 hres
      have hdir : w.isDir p = false := by
        cases hd : w.isDir p with
        | false => rfl
        | true =>
          have : w.resolvesToDir p = true := by
            simp [World.resolvesToDir, hd, hp0]
          rw [hres] at this
          exact absurd this (by decide)
      simp [hp, hdir, hres]

/-- The part of a path before one of its separators is among its ancestors. -/
theorem mem_ancestorsAux (post : List Char) :
    ∀ (pre acc : List Char), acc.reverse ++ pre ≠ [] →
      String.mk (acc.reverse ++ pre) ∈ ancestorsAux acc (pre ++ '/' :: post) := by
  intro pre
  induction pre with
  | nil =>
    intro acc hne
    have hacc : acc ≠ [] := by
      intro h0
      apply hne
      simp [h0]
    simp [ancestorsAux, hacc]
  | cons c pre ih =>
    intro acc _
    have hstep := ih (c :: acc) (by simp)
    have heq : (c :: acc).reverse ++ pre = acc.reverse ++ c :: pre := by simp
    rw [heq] at hstep
    show String.mk (acc.reverse ++ c :: pre) ∈ ancestorsAux acc (c :: (pre ++ '/' :: post))
    unfold ancestorsAux
    split
    · exact List.mem_cons_of_mem _ hstep
    · exact hstep

/-- Every non-empty `d` with `path = d ++ "/" ++ rest` is an ancestor of the path. -/
theorem mem_ancestors (d rest : String) (hd : d ≠ "") : d ∈ ancestors (d ++ "/" ++ rest) := by
  have hdata : d.data ≠ [] := by
    intro h0
    apply hd
    apply String.ext
    rw [h0]
  have h := mem_ancestorsAux rest.data d.data [] (by simpa using hdata)
  simp only [List.reverse_nil, List.nil_append] at h
  unfold ancestors
  apply List.mem_append_left
  have hd2 : (d ++ "/" ++ rest).data = d.data ++ '/' :: rest.data := by
    simp [String.data_append]
  rw [hd2]
  exact h

/-- Whatever its outcome, `FGetObject` records exactly its own request. -/
theorem fGetObject_trace (bucket object filePath : String) (w : World) :
    (FGetObject bucket object filePath w).2.trace
      = w.trace ++ [.fGetObject bucket object filePath] := by
  unfold FGetObject
  simp only
  split
  · rfl
  · split
    · rfl
    · split
      · rfl
      · split <;> rfl

/-- Whatever its outcome, `FGetObject` keeps every directory that exists, with
its mode. -/
theorem fGetObject_dirs_kept (bucket object filePath : String) (w : World)
    (p : String) (m : Nat) (hp : w.dirs p = some m) :
    (FGetObject bucket object filePath w).2.dirs p = some m := by
  unfold FGetObject
  simp only
  split
  · exact hp
  · split
    · exact hp
    · rename_i dirs1 hdirs
      have hk : dirs1 p = some m := by
        cases ho : objectDir filePath with
        | none =>
          simp only [ho, Except.ok.injEq] at hdirs
          rw [← hdirs]; exact hp
        | some d =>
          simp only [ho] at hdirs
          exact mkdirAllDirs_kept hdirs p m hp
      split
      · exact hk
      · split <;> exact hk

/-- A successful `FGetObject` found the object in the backend and left its
bytes in the local file. -/
theorem fGetObject_ok {bucket object filePath : String} {w w1 : World}
    (h : FGetObject bucket object filePath w = (none, w1)) :
    ∃ data, w.object? bucket object = some data ∧ w1.files filePath = some data := by
  unfold FGetObject at h
  simp only at h
  split at h
  · simp at h
  · split at h
    · simp at h
    · split at h
      · simp at h
      · split at h
        · simp at h
        · rename_i data hdata
          simp only [Prod.mk.injEq, true_and] at h
          refine ⟨data, hdata, ?_⟩
          rw [← h]
          simp

/-- C9: `Download` first calls `os.MkdirAll(destdir, 0755)` and only then
requests the object into `destdir + "/" + filename`. When the creation of
the directory fails, `Download` returns that very error, has issued no
backend request and has changed neither the backend nor a regular file.
Creation succeeds (an injected failure apart) when the path names a
directory already. When creation and fetch succeed, `Download` returns no
error, the path names a directory afterwards and the file
`destdir + "/" + filename` holds the bytes of the object. When moreover the
path named no directory before, it is a directory of mode 0755 afterwards,
and so is every missing directory above it: each non-empty `d` with
`destdir = d ++ "/" ++ rest` names a directory afterwards, and is one of mode
0755 if it named none before. -/
theorem download_creates_directory_first (s : StoreClient) (object destdir filename : String)
    (w : World) :
    (∀ err w1, osMkdirAll destdir 0o755 w = (some err, w1) →
      (Download s object destdir filename w).val = some err ∧
      (Download s object destdir filename w).world.trace
        = w.trace ++ [Call.mkdirAll destdir 0o755] ∧
      (Call.mkdirAll destdir 0o755).bucket? = none ∧
      (Download s object destdir filename w).world.objects = w.objects ∧
      (Download s object destdir filename w).world.files = w.files) ∧
    (∀ w1, osMkdirAll destdir 0o755 w = (none, w1) →
      (Download s object destdir filename w).val
        = (FGetObject s.Bucket object (destdir ++ "/" ++ filename) w1).1 ∧
      (Download s object destdir filename w).world.trace
        = w.trace ++ [Call.mkdirAll destdir 0o755,
            Call.fGetObject s.Bucket object (destdir ++ "/" ++ filename)]) ∧
    (w.resolvesToDir destdir = true → w.faults (.mkdirAll destdir 0o755) = none →
      osMkdirAll destdir 0o755 w = (none, w.log (.mkdirAll destdir 0o755)) ∧
      (Download s object destdir filename w).val
        = (FGetObject s.Bucket object (destdir ++ "/" ++ filename)
            (w.log (.mkdirAll destdir 0o755))).1) ∧
    (∀ w1 w2, osMkdirAll destdir 0o755 w = (none, w1) →
      FGetObject s.Bucket object (destdir ++ "/" ++ filename) w1 = (none, w2) →
      (Download s object destdir filename w).val = none ∧
      (Download s object destdir filename w).world.resolvesToDir destdir = true ∧
      (∃ data, w.object? s.Bucket object = some data ∧
        (Download s object destdir filename w).world.files (destdir ++ "/" ++ filename)
          = some data) ∧
      (w.resolvesToDir destdir = false →
        (Download s object destdir filename w).world.dirs destdir = some 0o755 ∧
        ∀ d rest, d ≠ "" → destdir = d ++ "/" ++ rest →
          (Download s object destdir filename w).world.resolvesToDir d = true ∧
          (w.resolvesToDir d = false →
            (Download s object destdir filename w).world.dirs d = some 0o755))) := by
  refine ⟨?_, ?_, ?_, ?_⟩
  · intro err w1 h
    have ht := osMkdirAll_trace destdir 0o755 w
    have hfr := osMkdirAll_frame destdir 0o755 w
    rw [h] at ht hfr
    have hworld : (Download s object destdir filename w).world = w1 := by
      simp [Download, h]
    rw [hworld]
    exact ⟨by simp [Download, h], ht, rfl, hfr.1, hfr.2⟩
  · intro w1 h
    have ht := osMkdirAll_trace destdir 0o755 w
    rw [h] at ht
    have hg := fGetObject_trace s.Bucket object (destdir ++ "/" ++ filename) w1
    refine ⟨by simp [Download, h], ?_⟩
    simp only [Download, h]
    rw [hg, ht]
    simp
  · intro hdir hf
    have hm : osMkdirAll destdir 0o755 w = (none, w.log (.mkdirAll destdir 0o755)) := by
      simp only [osMkdirAll, hf, mkdirAllDirs, hdir, if_true]
      rfl
    exact ⟨hm, by simp [Download, hm]⟩
  · intro w1 w2 h hfetch
    obtain ⟨dirs1, hmk, hw1⟩ := osMkdirAll_ok h
    have hworld : (Download s object destdir filename w).world = w2 := by
      simp [Download, h, hfetch]
    have hkept12 : ∀ p m, w1.dirs p = some m → w2.dirs p = some m := by
      intro p m hp
      have := fGetObject_dirs_kept s.Bucket object (destdir ++ "/" ++ filename) w1 p m hp
      rw [hfetch] at this
      exact this
    have hkept : ∀ p m, dirs1 p = some m → w2.dirs p = some m := by
      intro p m hp
      exact hkept12 p m (by rw [hw1]; exact hp)
    have hkept0 : ∀ p m, w.dirs p = some m → w2.dirs p = some m := by
      intro p m hp
      exact hkept p m (mkdirAllDirs_kept hmk p m hp)
    obtain ⟨data, hdata, hfile⟩ := fGetObject_ok hfetch
    have hobj : w1.object? s.Bucket object = w.object? s.Bucket object := by
      have := (osMkdirAll_frame destdir 0o755 w).1
      rw [h] at this
      simp only [World.object?]
      rw [this]
    have hafter : ∀ p, p ∈ ancestors destdir → p ≠ "" → w.resolvesToDir destdir = false →
        w2.resolvesToDir p = true ∧ (w.resolvesToDir p = false → w2.dirs p = some 0o755) := by
      intro p hp hp0 hnew
      have hnewdirs := (mkdirAllDirs_new hmk hnew).2 p hp hp0
      refine ⟨?_, fun hres => hkept p _ (hnewdirs hres)⟩
      cases hres : w.resolvesToDir p with
      | true => exact resolvesToDir_mono hkept0 hres
      | false => exact resolvesToDir_of_dirs (hkept p _ (hnewdirs hres)) hp0
    rw [hworld]
    refine ⟨by simp [Download, h, hfetch], ?_,
      ⟨data, by rw [← hobj]; exact hdata, hfile⟩, ?_⟩
    · cases hres : w.resolvesToDir destdir with
      | true => exact resolvesToDir_mono hkept0 hres
      | false =>
        exact (hafter destdir (by simp [ancestors]) (mkdirAllDirs_new hmk hres).1 hres).1
    · intro hnew
      have hne := (mkdirAllDirs_new hmk hnew).1
      refine ⟨(hafter destdir (by simp [ancestors]) hne hnew).2 hnew, ?_⟩
      intro d rest hd hdest
      have hmem : d ∈ ancestors destdir := by
        rw [hdest]; exact mem_ancestors d rest hd
      exact hafter d hmem hd hnew

/-- C9 at concrete worlds: a download into the missing directory `/data/a/b`
creates `/data`, `/data/a` and `/data/a/b` with mode 0755 and leaves the three
bytes of the object in `/data/a/b/f.bin`; when the directory cannot be
created nothing is requested from the backend; a download into the existing
directory `/tmp` succeeds. -/
theorem download_creates_directory_first_witness :
    (Download client0 "k" "/data/a/b" "f.bin" worldWithObject).val = none ∧
    (Download client0 "k" "/data/a/b" "f.bin" worldWithObject).world.files "/data/a/b/f.bin"
      = some [1, 2, 3] ∧
    (Download client0 "k" "/data/a/b" "f.bin" worldWithObject).world.dirs "/data/a/b"
      = some 0o755 ∧
    (Download client0 "k" "/data/a/b" "f.bin" worldWithObject).world.dirs "/data/a"
      = some 0o755 ∧
    (Download client0 "k" "/data/a/b" "f.bin" worldWithObject).world.dirs "/data"
      = some 0o755 ∧
    (Download client0 "k" "/data/a/b" "f.bin" worldWithObject).world.trace
      = [.mkdirAll "/data/a/b" 0o755, .fGetObject "bkt" "k" "/data/a/b/f.bin"] ∧
    (Download client0 "k" "/data" "f.bin"
      (worldWithObject.failing (.mkdirAll "/data" 0o755) (.base "permission denied"))).val
      = some (.base "permission denied") ∧
    (Download client0 "k" "/data" "f.bin"
      (worldWithObject.failing (.mkdirAll "/data" 0o755)
        (.base "permission denied"))).world.trace
      = [.mkdirAll "/data" 0o755] ∧
    (Download client0 "k" "/tmp" "f.bin" worldWithObject).val
      = (FGetObject "bkt" "k" "/tmp/f.bin" (worldWithObject.log (.mkdirAll "/tmp" 0o755))).1 ∧
    (Download client0 "k" "/tmp" "f.bin" worldWithObject).val = none :=
  ⟨((download_creates_directory_first client0 "k" "/data/a/b" "f.bin" worldWithObject).2.2.2
      _ _ rfl rfl).1,
   by
    obtain ⟨data, hd, hf⟩ :=
      ((download_creates_directory_first client0 "k" "/data/a/b" "f.bin"
        worldWithObject).2.2.2 _ _ rfl rfl).2.2.1
    have hd2 : data = [1, 2, 3] := (Option.some.inj hd).symm
    rw [← hd2]
    exact hf,
   (((download_creates_directory_first client0 "k" "/data/a/b" "f.bin" worldWithObject).2.2.2
      _ _ rfl rfl).2.2.2 rfl).1,
   ((((download_creates_directory_first client0 "k" "/data/a/b" "f.bin" worldWithObject).2.2.2
      _ _ rfl rfl).2.2.2 rfl).2 "/data/a" "b" (by decide) rfl).2 rfl,
   ((((download_creates_directory_first client0 "k" "/data/a/b" "f.bin" worldWithObject).2.2.2
      _ _ rfl rfl).2.2.2 rfl).2 "/data" "a/b" (by decide) rfl).2 rfl,
   ((download_creates_directory_first client0 "k" "/data/a/b" "f.bin" worldWithObject).2.1
      _ rfl).2,
   ((download_creates_directory_first client0 "k" "/data" "f.bin"
      (worldWithObject.failing (.mkdirAll "/data" 0o755) (.base "permission denied"))).1
      _ _ rfl).1,
   ((download_creates_directory_first client0 "k" "/data" "f.bin"
      (worldWithObject.failing (.mkdirAll "/data" 0o755) (.base "permission denied"))).1
      _ _ rfl).2.1,
   ((download_creates_directory_first client0 "k" "/tmp" "f.bin" worldWithObject).2.2.1
      rfl rfl).2,
   ((download_creates_directory_first client0 "k" "/tmp" "f.bin" worldWithObject).2.2.2
      _ _ rfl rfl).1⟩

/-! ## The bucket of a client -/

theorem onlyBucket_refl (b : String) (w : World) : OnlyBucket b w w :=
  ⟨[], by simp, by simp⟩

theorem onlyBucket_trans {b : String} {w w1 w2 : World}
    (h1 : OnlyBucket b w w1) (h2 : OnlyBucket b w1 w2) : OnlyBucket b w w2 := by
  obtain ⟨c1, ht1, hb1⟩ := h1
  obtain ⟨c2, ht2, hb2⟩ := h2
  refine ⟨c1 ++ c2, by rw [ht2, ht1, List.append_assoc], ?_⟩
  intro c hc
  rcases List.mem_append.mp hc with h | h
  · exact hb1 c h
  · exact hb2 c h

/-- One recorded call that is no backend request, or a request to the bucket. -/
theorem onlyBucket_step {b : String} {w w1 : World} (c : Call)
    (ht : w1.trace = w.trace ++ [c]) (hc : ∀ b1, c.bucket? = some b1 → b1 = b) :
    OnlyBucket b w w1 := by
  refine ⟨[c], ht, ?_⟩
  intro c1 h1
  simp only [List.mem_singleton] at h1
  rw [h1]; exact hc

theorem osOpen_trace (name : String) (w : World) :
    (osOpen name w).2.trace = w.trace ++ [.osOpen name] := by
  unfold osOpen
  cases hf : w.faults (.osOpen name) with
  | some e => rfl
  | none => simp only; split <;> rfl

theorem osCreate_trace (name : String) (w : World) :
    (osCreate name w).2.trace = w.trace ++ [.osCreate name] := by
  unfold osCreate
  cases hf : w.faults (.osCreate name) with
  | some e => rfl
  | none => simp only; split <;> rfl

theorem osCreateTemp_trace (dir pattern : String) (w : World) :
    (osCreateTemp dir pattern w).2.trace = w.trace ++ [.osCreateTemp dir pattern] := by
  unfold osCreateTemp
  cases hf : w.faults (.osCreateTemp dir pattern) with
  | some e => rfl
  | none => simp only; split <;> rfl

theorem fileStat_trace (f : File) (w : World) :
    (f.Stat w).2.trace = w.trace ++ [.fileStat f.name] := by
  unfold File.Stat
  cases hf : w.faults (.fileStat f.name) with
  | some e => rfl
  | none => simp only; split <;> rfl

theorem fileWrite_trace (f : File) (data : Bytes) (w : World) :
    (f.Write data w).2.trace = w.trace ++ [.fileWrite f.name] := by
  unfold File.Write
  cases hf : w.faults (.fileWrite f.name) <;> rfl

theorem putObject_trace (bucket object : String) (reader : Bytes) (size : Nat)
    (opts : PutObjectOptions) (w : World) :
    (PutObject bucket object reader size opts w).2.trace
      = w.trace ++ [.putObject bucket object size] := by
  unfold PutObject
  cases hf : w.faults (.putObject bucket object size) with
  | some e => rfl
  | none => simp only; split <;> rfl

theorem statObject_trace (bucket object : String) (w : World) :
    (StatObject bucket object w).2.trace = w.trace ++ [.statObject bucket object] := by
  unfold StatObject
  cases hf : w.faults (.statObject bucket object) with
  | some e => rfl
  | none => simp only; split <;> rfl

theorem readAll_trace (o : Object) (w : World) :
    (o.readAll w).2.trace = w.trace ++ [.objRead o.bucket o.object] := by
  unfold Object.readAll
  cases hf : w.faults (.objRead o.bucket o.object) with
  | some e => rfl
  | none => simp only; split <;> rfl

theorem listObjects_trace (bucket : String) (opts : ListObjectsOptions) (w : World) :
    (ListObjects bucket opts w).2.trace
      = w.trace ++ [.listObjects bucket opts.Prefix opts.Recursive] := by
  unfold ListObjects
  cases hf : w.faults (.listObjects bucket opts.Prefix opts.Recursive) <;> rfl

theorem osMkdirAll_onlyBucket (b path : String) (perm : Nat) (w : World) :
    OnlyBucket b w (osMkdirAll path perm w).2 :=
  onlyBucket_step _ (osMkdirAll_trace path perm w) (by intro b1 h; simp [Call.bucket?] at h)

theorem osOpen_onlyBucket (b name : String) (w : World) : OnlyBucket b w (osOpen name w).2 :=
  onlyBucket_step _ (osOpen_trace name w) (by intro b1 h; simp [Call.bucket?] at h)

theorem osCreate_onlyBucket (b name : String) (w : World) :
    OnlyBucket b w (osCreate name w).2 :=
  onlyBucket_step _ (osCreate_trace name w) (by intro b1 h; simp [Call.bucket?] at h)

theorem osCreateTemp_onlyBucket (b dir pattern : String) (w : World) :
    OnlyBucket b w (osCreateTemp dir pattern w).2 :=
  onlyBucket_step _ (osCreateTemp_trace dir pattern w)
    (by intro b1 h; simp [Call.bucket?] at h)

theorem fileStat_onlyBucket (b : String) (f : File) (w : World) :
    OnlyBucket b w (f.Stat w).2 :=
  onlyBucket_step _ (fileStat_trace f w) (by intro b1 h; simp [Call.bucket?] at h)

theorem fileWrite_onlyBucket (b : String) (f : File) (data : Bytes) (w : World) :
    OnlyBucket b w (f.Write data w).2 :=
  onlyBucket_step _ (fileWrite_trace f data w) (by intro b1 h; simp [Call.bucket?] at h)

theorem fileClose_onlyBucket (b : String) (f : File) (w : World) :
    OnlyBucket b w (f.Close w).2 :=
  onlyBucket_step (.fileClose f.name) rfl (by intro b1 h; simp [Call.bucket?] at h)

theorem objClose_onlyBucket (b : String) (o : Object) (w : World) :
    OnlyBucket b w (o.Close w).2 :=
  onlyBucket_step (.objClose o.bucket o.object) rfl (by intro b1 h; simp [Call.bucket?] at h)

theorem putObject_onlyBucket (bucket object : String) (reader : Bytes) (size : Nat)
    (opts : PutObjectOptions) (w : World) :
    OnlyBucket bucket w (PutObject bucket object reader size opts w).2 :=
  onlyBucket_step _ (putObject_trace bucket object reader size opts w)
    (by intro b1 h; simp only [Call.bucket?, Option.some.injEq] at h; exact h.symm)

theorem getObject_onlyBucket (bucket object : String) (w : World) :
    OnlyBucket bucket w (GetObject bucket object w).2 :=
  onlyBucket_step (.getObject bucket object) (by rw [getObject_world]; rfl)
    (by intro b1 h; simp only [Call.bucket?, Option.some.injEq] at h; exact h.symm)

theorem statObject_onlyBucket (bucket object : String) (w : World) :
    OnlyBucket bucket w (StatObject bucket object w).2 :=
  onlyBucket_step _ (statObject_trace bucket object w)
    (by intro b1 h; simp only [Call.bucket?, Option.some.injEq] at h; exact h.symm)

theorem fGetObject_onlyBucket (bucket object filePath : String) (w : World) :
    OnlyBucket bucket w (FGetObject bucket object filePath w).2 :=
  onlyBucket_step _ (fGetObject_trace bucket object filePath w)
    (by intro b1 h; simp only [Call.bucket?, Option.some.injEq] at h; exact h.symm)

theorem listObjects_onlyBucket (bucket : String) (opts : ListObjectsOptions) (w : World) :
    OnlyBucket bucket w (ListObjects bucket opts w).2 :=
  onlyBucket_step _ (listObjects_trace bucket opts w)
    (by intro b1 h; simp only [Call.bucket?, Option.some.injEq] at h; exact h.symm)

theorem readAll_onlyBucket (o : Object) (w : World) :
    OnlyBucket o.bucket w (o.readAll w).2 :=
  onlyBucket_step _ (readAll_trace o w)
    (by intro b1 h; simp only [Call.bucket?, Option.some.injEq] at h; exact h.symm)

theorem ioCopy_onlyBucket (dst : File) (src : Object) (w : World) :
    OnlyBucket src.bucket w (ioCopy dst src w).2 := by
  unfold ioCopy
  have hr := readAll_onlyBucket src w
  rcases hread : src.readAll w with ⟨⟨data, rerr⟩, w1⟩
  rw [hread] at hr
  simp only
  split
  · exact hr
  · have hw := fileWrite_onlyBucket src.bucket dst data w1
    rcases hwr : dst.Write data w1 with ⟨⟨n, werr⟩, w2⟩
    rw [hwr] at hw
    cases werr <;> exact onlyBucket_trans hr hw

theorem download_frame (s : StoreClient) (object destdir filename : String) (w : World) :
    (Download s object destdir filename w).client = s ∧
    OnlyBucket s.Bucket w (Download s object destdir filename w).world := by
  unfold Download
  have h1 := osMkdirAll_onlyBucket s.Bucket destdir 0o755 w
  rcases hm : osMkdirAll destdir 0o755 w with ⟨r, w1⟩
  rw [hm] at h1
  cases r with
  | some err =>
    try dsimp only at *
    exact ⟨rfl, h1⟩
  | none =>
    try dsimp only at *
    have h2 := fGetObject_onlyBucket s.Bucket object (destdir ++ "/" ++ filename) w1
    rcases hg : FGetObject s.Bucket object (destdir ++ "/" ++ filename) w1 with ⟨err, w2⟩
    rw [hg] at h2
    exact ⟨rfl, onlyBucket_trans h1 h2⟩

theorem listObjs_frame (s : StoreClient) (pfx : String) (w : World) :
    (ListObjs s pfx w).client = s ∧ OnlyBucket s.Bucket w (ListObjs s pfx w).world :=
  ⟨rfl, listObjects_onlyBucket s.Bucket ⟨pfx, true⟩ w⟩

theorem putFile_frame (s : StoreClient) (path name : String) (options : PutObjectOptions)
    (w : World) :
    (PutFile s path name options w).client = s ∧
    OnlyBucket s.Bucket w (PutFile s path name options w).world := by
  unfold PutFile
  have h1 := osOpen_onlyBucket s.Bucket path w
  rcases ho : osOpen path w with ⟨r, w1⟩
  rw [ho] at h1
  cases r with
  | error err =>
    try dsimp only at *
    exact ⟨rfl, h1⟩
  | ok object =>
    try dsimp only at *
    have h2 := fileStat_onlyBucket s.Bucket object w1
    rcases hs : object.Stat w1 with ⟨r2, w2⟩
    rw [hs] at h2
    cases r2 with
    | error err =>
      try dsimp only at *
      exact ⟨rfl, onlyBucket_trans (onlyBucket_trans h1 h2) (fileClose_onlyBucket _ _ _)⟩
    | ok objectStat =>
      try dsimp only at *
      have h3 := putObject_onlyBucket s.Bucket name (object.contents w2) objectStat.Size
        options w2
      rcases hp : PutObject s.Bucket name (object.contents w2) objectStat.Size options w2
        with ⟨r3, w3⟩
      rw [hp] at h3
      have h4 := onlyBucket_trans (onlyBucket_trans (onlyBucket_trans h1 h2) h3)
        (fileClose_onlyBucket s.Bucket object w3)
      cases r3 <;> (try dsimp only at *) <;> exact ⟨rfl, h4⟩

theorem putS3ObjectBytes_frame (s : StoreClient) (objectName : String) (bytebufr : Bytes)
    (options : PutObjectOptions) (w : World) :
    (PutS3ObjectBytes s objectName bytebufr options w).client = s ∧
    OnlyBucket s.Bucket w (PutS3ObjectBytes s objectName bytebufr options w).world := by
  unfold PutS3ObjectBytes
  dsimp only
  have h1 := putObject_onlyBucket s.Bucket objectName bytebufr bytebufr.length options w
  rcases hp : PutObject s.Bucket objectName bytebufr bytebufr.length options w with ⟨r, w1⟩
  rw [hp] at h1
  cases r <;> (try dsimp only at *) <;> exact ⟨rfl, h1⟩

theorem getS3ObjectBytes_frame (s : StoreClient) (objectName : String) (w : World) :
    (GetS3ObjectBytes s objectName w).client = s ∧
    OnlyBucket s.Bucket w (GetS3ObjectBytes s objectName w).world := by
  unfold GetS3ObjectBytes
  have h1 := getObject_onlyBucket s.Bucket objectName w
  rcases hg : GetObject s.Bucket objectName w with ⟨r, w1⟩
  rw [hg] at h1
  cases r with
  | error err =>
    try dsimp only at *
    exact ⟨rfl, h1⟩
  | ok obj =>
    try dsimp only at *
    have hb : obj.bucket = s.Bucket := by rw [(getObject_ok hg).1]
    have h2 := readAll_onlyBucket obj w1
    rw [hb] at h2
    rcases hr : obj.readAll w1 with ⟨⟨buf, err⟩, w2⟩
    rw [hr] at h2
    exact ⟨rfl, onlyBucket_trans (onlyBucket_trans h1 h2) (objClose_onlyBucket _ _ _)⟩

theorem objectExists_frame (s : StoreClient) (name : String) (w : World) :
    (ObjectExists s name w).client = s ∧
    OnlyBucket s.Bucket w (ObjectExists s name w).world := by
  unfold ObjectExists
  have h1 := statObject_onlyBucket s.Bucket name w
  rcases hs : StatObject s.Bucket name w with ⟨r, w1⟩
  rw [hs] at h1
  cases r with
  | error err =>
    try dsimp only at *
    split <;> exact ⟨rfl, h1⟩
  | ok info =>
    try dsimp only at *
    exact ⟨rfl, h1⟩

theorem downloadObj_frame (s : StoreClient) (objectName outPath : String) (w : World) :
    (DownloadObj s objectName outPath w).client = s ∧
    OnlyBucket s.Bucket w (DownloadObj s objectName outPath w).world := by
  unfold DownloadObj
  have h1 := getObject_onlyBucket s.Bucket objectName w
  rcases hg : GetObject s.Bucket objectName w with ⟨r, w1⟩
  rw [hg] at h1
  cases r with
  | error err =>
    try dsimp only at *
    exact ⟨rfl, h1⟩
  | ok obj =>
    try dsimp only at *
    have hb : obj.bucket = s.Bucket := by rw [(getObject_ok hg).1]
    have h2 := onlyBucket_trans h1 (osCreate_onlyBucket s.Bucket outPath w1)
    rcases hc : osCreate outPath w1 with ⟨r2, w2⟩
    rw [hc] at h2
    cases r2 with
    | error err =>
      try dsimp only at *
      exact ⟨rfl, onlyBucket_trans h2 (objClose_onlyBucket _ _ _)⟩
    | ok localFile =>
      try dsimp only at *
      have h3 := ioCopy_onlyBucket localFile obj w2
      rw [hb] at h3
      have h3 := onlyBucket_trans h2 h3
      rcases hcp : ioCopy localFile obj w2 with ⟨⟨n, cerr⟩, w3⟩
      rw [hcp] at h3
      cases cerr with
      | some err =>
        try dsimp only at *
        exact ⟨rfl, onlyBucket_trans (onlyBucket_trans h3 (fileClose_onlyBucket _ _ _))
          (objClose_onlyBucket _ _ _)⟩
      | none =>
        try dsimp only at *
        have h4 := onlyBucket_trans h3 (fileStat_onlyBucket s.Bucket localFile w3)
        rcases hst : localFile.Stat w3 with ⟨r4, w4⟩
        rw [hst] at h4
        cases r4 with
        | error err =>
          try dsimp only at *
          exact ⟨rfl, onlyBucket_trans (onlyBucket_trans h4 (fileClose_onlyBucket _ _ _))
            (objClose_onlyBucket _ _ _)⟩
        | ok fi =>
          try dsimp only at *
          split
          · exact ⟨rfl, onlyBucket_trans (onlyBucket_trans h4 (fileClose_onlyBucket _ _ _))
              (objClose_onlyBucket _ _ _)⟩
          · have h5 : OnlyBucket s.Bucket w
                { w4 with stdout := w4.stdout ++ [fileSizeLine fi.Size] } := h4
            exact ⟨rfl, onlyBucket_trans (onlyBucket_trans h5 (fileClose_onlyBucket _ _ _))
              (objClose_onlyBucket _ _ _)⟩

theorem object2Tempfile_frame (s : StoreClient) (objectName : String) (w : World) :
    (Object2Tempfile s objectName w).client = s ∧
    OnlyBucket s.Bucket w (Object2Tempfile s objectName w).world := by
  unfold Object2Tempfile
  have h1 := osCreateTemp_onlyBucket s.Bucket "/tmp" "object-" w
  rcases ht : osCreateTemp "/tmp" "object-" w with ⟨r, w1⟩
  rw [ht] at h1
  cases r with
  | error err =>
    try dsimp only at *
    exact ⟨rfl, h1⟩
  | ok f =>
    try dsimp only at *
    have h2 := onlyBucket_trans h1 (getObject_onlyBucket s.Bucket objectName w1)
    rcases hg : GetObject s.Bucket objectName w1 with ⟨r2, w2⟩
    rw [hg] at h2
    cases r2 with
    | error err =>
      try dsimp only at *
      exact ⟨rfl, h2⟩
    | ok obj =>
      try dsimp only at *
      have hb : obj.bucket = s.Bucket := by rw [(getObject_ok hg).1]
      have h3 := onlyBucket_trans h2 (osCreate_onlyBucket s.Bucket f.Name w2)
      rcases hc : osCreate f.Name w2 with ⟨r3, w3⟩
      rw [hc] at h3
      cases r3 with
      | error err =>
        try dsimp only at *
        exact ⟨rfl, onlyBucket_trans h3 (objClose_onlyBucket _ _ _)⟩
      | ok localFile =>
        try dsimp only at *
        have h4 := ioCopy_onlyBucket localFile obj w3
        rw [hb] at h4
        have h4 := onlyBucket_trans h3 h4
        rcases hcp : ioCopy localFile obj w3 with ⟨⟨n, cerr⟩, w4⟩
        rw [hcp] at h4
        cases cerr <;> (try dsimp only at *) <;>
          exact ⟨rfl, onlyBucket_trans (onlyBucket_trans h4 (fileClose_onlyBucket _ _ _))
            (objClose_onlyBucket _ _ _)⟩

/-- C8: a client built by `NewClientWithBucket` has the bucket it was given;
no operation changes the client it is called on (so its `Bucket` stays what
it was); and every backend request an operation issues is addressed to the
client's `Bucket`. -/
theorem bucket_fixed :
    (∀ endpoint accessKeyID secretAccessKey bucket w s,
      NewClientWithBucket endpoint accessKeyID secretAccessKey bucket w = .ok s →
      s.Bucket = bucket) ∧
    (∀ s object destdir filename w,
      (Download s object destdir filename w).client.Bucket = s.Bucket ∧
      OnlyBucket s.Bucket w (Download s object destdir filename w).world) ∧
    (∀ s pfx w,
      (ListObjs s pfx w).client.Bucket = s.Bucket ∧
      OnlyBucket s.Bucket w (ListObjs s pfx w).world) ∧
    (∀ s path name options w,
      (PutFile s path name options w).client.Bucket = s.Bucket ∧
      OnlyBucket s.Bucket w (PutFile s path name options w).world) ∧
    (∀ s objectName bytebufr options w,
      (PutS3ObjectBytes s objectName bytebufr options w).client.Bucket = s.Bucket ∧
      OnlyBucket s.Bucket w (PutS3ObjectBytes s objectName bytebufr options w).world) ∧
    (∀ s objectName w,
      (GetS3ObjectBytes s objectName w).client.Bucket = s.Bucket ∧
      OnlyBucket s.Bucket w (GetS3ObjectBytes s objectName w).world) ∧
    (∀ s name w,
      (ObjectExists s name w).client.Bucket = s.Bucket ∧
      OnlyBucket s.Bucket w (ObjectExists s name w).world) ∧
    (∀ s objectName outPath w,
      (DownloadObj s objectName outPath w).client.Bucket = s.Bucket ∧
      OnlyBucket s.Bucket w (DownloadObj s objectName outPath w).world) ∧
    (∀ s objectName w,
      (Object2Tempfile s objectName w).client.Bucket = s.Bucket ∧
      OnlyBucket s.Bucket w (Object2Tempfile s objectName w).world) := by
  refine ⟨?_, ?_, ?_, ?_, ?_, ?_, ?_, ?_, ?_⟩
  · intro endpoint accessKeyID secretAccessKey bucket w s h
    unfold NewClientWithBucket at h
    simp only at h
    split at h
    · simp at h
    · simp only [Except.ok.injEq] at h
      rw [← h]
  · intro s object destdir filename w
    have h := download_frame s object destdir filename w
    exact ⟨by rw [h.1], h.2⟩
  · intro s pfx w
    have h := listObjs_frame s pfx w
    exact ⟨by rw [h.1], h.2⟩
  · intro s path name options w
    have h := putFile_frame s path name options w
    exact ⟨by rw [h.1], h.2⟩
  · intro s objectName bytebufr options w
    have h := putS3ObjectBytes_frame s objectName bytebufr options w
    exact ⟨by rw [h.1], h.2⟩
  · intro s objectName w
    have h := getS3ObjectBytes_frame s objectName w
    exact ⟨by rw [h.1], h.2⟩
  · intro s name w
    have h := objectExists_frame s name w
    exact ⟨by rw [h.1], h.2⟩
  · intro s objectName outPath w
    have h := downloadObj_frame s objectName outPath w
    exact ⟨by rw [h.1], h.2⟩
  · intro s objectName w
    have h := object2Tempfile_frame s objectName w
    exact ⟨by rw [h.1], h.2⟩

/-- C8 at a concrete world: the constructor keeps the bucket `bkt`, and a
download to a temp file sends its two requests to `bkt`. -/
theorem bucket_fixed_witness :
    NewClientWithBucket "s3.example.org" "ak" "sk" "bkt" world0 = .ok client0 ∧
    client0.Bucket = "bkt" ∧
    (Object2Tempfile client0 "k" worldWithObject).world.trace
      = [.osCreateTemp "/tmp" "object-", .getObject "bkt" "k", .osCreate "/tmp/object-1",
         .objRead "bkt" "k", .fileWrite "/tmp/object-1", .fileClose "/tmp/object-1",
         .objClose "bkt" "k"] ∧
    OnlyBucket "bkt" worldWithObject (Object2Tempfile client0 "k" worldWithObject).world :=
  ⟨rfl, bucket_fixed.1 "s3.example.org" "ak" "sk" "bkt" world0 client0 rfl, rfl,
   (bucket_fixed.2.2.2.2.2.2.2.2 client0 "k" worldWithObject).2⟩

/-! ## Error descriptions -/

/-- C6 does not hold as stated: for the same underlying cause, a failure of
`PutFile` at the open stage, at the stat stage and at the transmit stage is
returned with one and the same description. -/
theorem putFile_same_description_at_each_stage :
    (osOpen "/in" (worldWithFile.failing (.osOpen "/in") (.base "input/output error"))).1
      = .error (.base "input/output error") ∧
    (osOpen "/in" (worldWithFile.failing (.fileStat "/in") (.base "input/output error"))).1
      = .ok ⟨"/in"⟩ ∧
    (File.Stat ⟨"/in"⟩
      (osOpen "/in" (worldWithFile.failing (.fileStat "/in") (.base "input/output error"))).2).1
      = .error (.base "input/output error") ∧
    (PutFile client0 "/in" "k" options0
      (worldWithFile.failing (.osOpen "/in") (.base "input/output error"))).val
      = some (.errorf "PutFile(): input/output error") ∧
    (PutFile client0 "/in" "k" options0
      (worldWithFile.failing (.fileStat "/in") (.base "input/output error"))).val
      = some (.errorf "PutFile(): input/output error") ∧
    (PutFile client0 "/in" "k" options0
      (worldWithFile.failing (.putObject "bkt" "k" 2) (.base "input/output error"))).val
      = some (.errorf "PutFile(): input/output error") :=
  ⟨rfl, rfl, rfl, rfl, rfl, rfl⟩

/-- C6 as amended: every error `PutFile` returns is a fresh error whose
description is "PutFile(): " followed by the description of the underlying
cause, the same at the open, the stat and the transmit stage: it names the
operation and the cause, and the stage only as far as the cause's own
description does. -/
theorem putFile_error_description (s : StoreClient) (path name : String)
    (options : PutObjectOptions) (w : World) :
    (∀ cause w1, osOpen path w = (.error cause, w1) →
      (PutFile s path name options w).val
        = some (GoError.errorf ("PutFile(): " ++ cause.Error))) ∧
    (∀ cause object w1 w2, osOpen path w = (.ok object, w1) →
      object.Stat w1 = (.error cause, w2) →
      (PutFile s path name options w).val
        = some (GoError.errorf ("PutFile(): " ++ cause.Error))) ∧
    (∀ cause object w1 objectStat w2 w3, osOpen path w = (.ok object, w1) →
      object.Stat w1 = (.ok objectStat, w2) →
      PutObject s.Bucket name (object.contents w2) objectStat.Size options w2
        = (some cause, w3) →
      (PutFile s path name options w).val
        = some (GoError.errorf ("PutFile(): " ++ cause.Error))) ∧
    (∀ err, (PutFile s path name options w).val = some err →
      ∃ cause : GoError, err = GoError.errorf ("PutFile(): " ++ cause.Error)) := by
  refine ⟨?_, ?_, ?_, ?_⟩
  · intro cause w1 h1
    simp [PutFile, h1, fmtErrorf]
  · intro cause object w1 w2 h1 h2
    simp [PutFile, h1, h2, fmtErrorf]
  · intro cause object w1 objectStat w2 w3 h1 h2 h3
    simp [PutFile, h1, h2, h3, fmtErrorf]
  · intro err h
    rcases h1 : osOpen path w with ⟨r1, w1⟩
    cases r1 with
    | error cause =>
      simp only [PutFile, h1, Option.some.injEq] at h
      exact ⟨cause, h.symm⟩
    | ok object =>
      rcases h2 : object.Stat w1 with ⟨r2, w2⟩
      cases r2 with
      | error cause =>
        simp only [PutFile, h1, h2, Option.some.injEq] at h
        exact ⟨cause, h.symm⟩
      | ok objectStat =>
        rcases h3 : PutObject s.Bucket name (object.contents w2) objectStat.Size options w2
          with ⟨r3, w3⟩
        cases r3 with
        | some cause =>
          simp only [PutFile, h1, h2, h3, Option.some.injEq] at h
          exact ⟨cause, h.symm⟩
        | none => simp [PutFile, h1, h2, h3] at h

/-- C6 as amended, at concrete worlds: the stat stage and the transmit stage
fail with the same cause and give the same description. -/
theorem putFile_error_description_witness :
    (PutFile client0 "/in" "k" options0
      (worldWithFile.failing (.fileStat "/in") (.base "input/output error"))).val
      = some (.errorf "PutFile(): input/output error") ∧
    (PutFile client0 "/in" "k" options0
      (worldWithFile.failing (.putObject "bkt" "k" 2) (.base "input/output error"))).val
      = some (.errorf "PutFile(): input/output error") :=
  ⟨(putFile_error_description client0 "/in" "k" options0
      (worldWithFile.failing (.fileStat "/in") (.base "input/output error"))).2.1
      _ _ _ _ rfl rfl,
   (putFile_error_description client0 "/in" "k" options0
      (worldWithFile.failing (.putObject "bkt" "k" 2) (.base "input/output error"))).2.2.1
      _ _ _ _ _ _ rfl rfl rfl⟩

/-- C7 does not hold as stated: when the creation of the directory fails,
`Download` returns the bare error of `os.MkdirAll`, with no context added;
and when the stream cannot be opened, `GetS3ObjectBytes` returns an error
whose description is the cause's description and nothing more. -/
theorem download_returns_bare_error :
    (osMkdirAll "/data" 0o755
      (world0.failing (.mkdirAll "/data" 0o755) (.base "permission denied"))).1
      = some (.base "permission denied") ∧
    (Download client0 "k" "/data" "f.bin"
      (world0.failing (.mkdirAll "/data" 0o755) (.base "permission denied"))).val
      = some (.base "permission denied") ∧
    (GetObject "bkt" "k"
      (world0.failing (.getObject "bkt" "k") (.base "connection refused"))).1
      = .error (.base "connection refused") ∧
    ((GetS3ObjectBytes client0 "k"
      (world0.failing (.getObject "bkt" "k") (.base "connection refused"))).val.2.map
        GoError.Error) = some "connection refused" :=
  ⟨rfl, rfl, rfl, rfl⟩

theorem empty_append (t : String) : "" ++ t = t := by
  apply String.ext
  simp

/-- C7 as amended: when an underlying call fails with `cause`, `PutFile`
(at `os.Open`, `Stat`, `PutObject`), `PutS3ObjectBytes` (at `PutObject`),
`DownloadObj` (at `GetObject`, `os.Create`, `io.Copy`, `Stat`) and
`Object2Tempfile` (at `os.CreateTemp`, `GetObject`, `os.Create`, `io.Copy`)
return a fresh error whose description is a context starting with the name
of the operation, followed by the description of the cause;
`NewClientWithBucket` (at `minio.New`) returns a fresh error whose
description is a non-empty context followed by the description of the cause;
`ObjectExists` returns the cause wrapped with "error stating object" unless
the cause is the not-found signal; `Download` returns the cause itself, bare;
`GetS3ObjectBytes` returns a fresh error with exactly the cause's description
when the stream cannot be opened, and the cause itself when reading fails;
and the error of a deferred `Close()` is dropped: an operation whose other
calls all succeed returns no error when a `Close()` fails. -/
theorem error_context (s : StoreClient) (w : World) (cause : GoError) :
    (∀ endpoint accessKeyID secretAccessKey bucket,
      minioNew endpoint accessKeyID secretAccessKey true w = .error cause →
      ∃ context : String, context ≠ "" ∧
        NewClientWithBucket endpoint accessKeyID secretAccessKey bucket w
          = .error (.errorf (context ++ cause.Error))) ∧
    (∀ object destdir filename,
      (∀ w1, osMkdirAll destdir 0o755 w = (some cause, w1) →
        (Download s object destdir filename w).val = some cause) ∧
      (∀ w1 w2, osMkdirAll destdir 0o755 w = (none, w1) →
        FGetObject s.Bucket object (destdir ++ "/" ++ filename) w1 = (some cause, w2) →
        (Download s object destdir filename w).val = some cause)) ∧
    (∀ path name options,
      (∀ w1, osOpen path w = (.error cause, w1) →
        (PutFile s path name options w).val
          = some (.errorf ("PutFile(): " ++ cause.Error))) ∧
      (∀ object w1 w2, osOpen path w = (.ok object, w1) →
        object.Stat w1 = (.error cause, w2) →
        (PutFile s path name options w).val
          = some (.errorf ("PutFile(): " ++ cause.Error))) ∧
      (∀ object w1 objectStat w2 w3, osOpen path w = (.ok object, w1) →
        object.Stat w1 = (.ok objectStat, w2) →
        PutObject s.Bucket name (object.contents w2) objectStat.Size options w2
          = (some cause, w3) →
        (PutFile s path name options w).val
          = some (.errorf ("PutFile(): " ++ cause.Error))) ∧
      (∀ object w1 objectStat w2 w3, osOpen path w = (.ok object, w1) →
        object.Stat w1 = (.ok objectStat, w2) →
        PutObject s.Bucket name (object.contents w2) objectStat.Size options w2
          = (none, w3) →
        (object.Close w3).1 = some cause →
        (PutFile s path name options w).val = none)) ∧
    (∀ objectName bytebufr options w1,
      PutObject s.Bucket objectName bytebufr bytebufr.length options w = (some cause, w1) →
      (PutS3ObjectBytes s objectName bytebufr options w).val
        = some (.errorf ("PutS3ObjectBytes(): " ++ cause.Error))) ∧
    (∀ objectName,
      (∀ w1, GetObject s.Bucket objectName w = (.error cause, w1) →
        (GetS3ObjectBytes s objectName w).val = ([], some (.errorf cause.Error))) ∧
      (∀ obj w1 buf w2, GetObject s.Bucket objectName w = (.ok obj, w1) →
        obj.readAll w1 = ((buf, some cause), w2) →
        (GetS3ObjectBytes s objectName w).val = (buf, some cause)) ∧
      (∀ obj w1 buf w2, GetObject s.Bucket objectName w = (.ok obj, w1) →
        obj.readAll w1 = ((buf, none), w2) →
        (obj.Close w2).1 = some cause →
        (GetS3ObjectBytes s objectName w).val = (buf, none))) ∧
    (∀ name w1, StatObject s.Bucket name w = (.error cause, w1) →
      cause.Error ≠ "The specified key does not exist." →
      (ObjectExists s name w).val = (false, some (.wrap cause "error stating object")) ∧
      (GoError.wrap cause "error stating object").Error
        = "error stating object: " ++ cause.Error) ∧
    (∀ objectName outPath,
      (∀ w1, GetObject s.Bucket objectName w = (.error cause, w1) →
        (DownloadObj s objectName outPath w).val
          = some (.errorf ("DownloadObj.GetObject(): " ++ cause.Error))) ∧
      (∀ obj w1 w2, GetObject s.Bucket objectName w = (.ok obj, w1) →
        osCreate outPath w1 = (.error cause, w2) →
        (DownloadObj s objectName outPath w).val
          = some (.errorf ("DownloadObj.Create(): " ++ cause.Error))) ∧
      (∀ obj w1 localFile w2 n w3, GetObject s.Bucket objectName w = (.ok obj, w1) →
        osCreate outPath w1 = (.ok localFile, w2) →
        ioCopy localFile obj w2 = ((n, some cause), w3) →
        (DownloadObj s objectName outPath w).val
          = some (.errorf ("DownloadObj.Copy(): " ++ cause.Error))) ∧
      (∀ obj w1 localFile w2 n w3 w4, GetObject s.Bucket objectName w = (.ok obj, w1) →
        osCreate outPath w1 = (.ok localFile, w2) →
        ioCopy localFile obj w2 = ((n, none), w3) →
        localFile.Stat w3 = (.error cause, w4) →
        (DownloadObj s objectName outPath w).val
          = some (.errorf ("DownloadObj.Stat(): " ++ cause.Error))) ∧
      (∀ obj w1 localFile w2 n w3 fi w4, GetObject s.Bucket objectName w = (.ok obj, w1) →
        osCreate outPath w1 = (.ok localFile, w2) →
        ioCopy localFile obj w2 = ((n, none), w3) →
        localFile.Stat w3 = (.ok fi, w4) → fi.Size ≠ 0 →
        (localFile.Close { w4 with stdout := w4.stdout ++ [fileSizeLine fi.Size] }).1
            = some cause ∨
          (obj.Close (localFile.Close
            { w4 with stdout := w4.stdout ++ [fileSizeLine fi.Size] }).2).1 = some cause →
        (DownloadObj s objectName outPath w).val = none)) ∧
    (∀ objectName,
      (∀ w1, osCreateTemp "/tmp" "object-" w = (.error cause, w1) →
        (Object2Tempfile s objectName w).val
          = ("", some (.errorf ("Object2Tempfile.CreateTem(): " ++ cause.Error)))) ∧
      (∀ f w1 w2, osCreateTemp "/tmp" "object-" w = (.ok f, w1) →
        GetObject s.Bucket objectName w1 = (.error cause, w2) →
        (Object2Tempfile s objectName w).val
          = ("", some (.errorf ("Object2Tempfile.GetObject(): " ++ cause.Error)))) ∧
      (∀ f w1 obj w2 w3, osCreateTemp "/tmp" "object-" w = (.ok f, w1) →
        GetObject s.Bucket objectName w1 = (.ok obj, w2) →
        osCreate f.Name w2 = (.error cause, w3) →
        (Object2Tempfile s objectName w).val
          = ("", some (.errorf ("Object2Tempfile.Create(): " ++ cause.Error)))) ∧
      (∀ f w1 obj w2 localFile w3 n w4, osCreateTemp "/tmp" "object-" w = (.ok f, w1) →
        GetObject s.Bucket objectName w1 = (.ok obj, w2) →
        osCreate f.Name w2 = (.ok localFile, w3) →
        ioCopy localFile obj w3 = ((n, some cause), w4) →
        (Object2Tempfile s objectName w).val
          = ("", some (.errorf ("Object2Tempfile.Copy(): " ++ cause.Error)))) ∧
      (∀ f w1 obj w2 localFile w3 n w4, osCreateTemp "/tmp" "object-" w = (.ok f, w1) →
        GetObject s.Bucket objectName w1 = (.ok obj, w2) →
        osCreate f.Name w2 = (.ok localFile, w3) →
        ioCopy localFile obj w3 = ((n, none), w4) →
        (localFile.Close w4).1 = some cause ∨
          (obj.Close (localFile.Close w4).2).1 = some cause →
        (Object2Tempfile s objectName w).val = (f.Name, none))) := by
  refine ⟨?_, ?_, ?_, ?_, ?_, ?_, ?_, ?_⟩
  · intro endpoint accessKeyID secretAccessKey bucket h
    refine ⟨"NewOSWithBucket: ", by decide, ?_⟩
    simp [NewClientWithBucket, h, fmtErrorf]
  · intro object destdir filename
    refine ⟨?_, ?_⟩
    · intro w1 h1
      simp [Download, h1]
    · intro w1 w2 h1 h2
      simp [Download, h1, h2]
  · intro path name options
    refine ⟨?_, ?_, ?_, ?_⟩
    · intro w1 h1
      simp [PutFile, h1, fmtErrorf]
    · intro object w1 w2 h1 h2
      simp [PutFile, h1, h2, fmtErrorf]
    · intro object w1 objectStat w2 w3 h1 h2 h3
      simp [PutFile, h1, h2, h3, fmtErrorf]
    · intro object w1 objectStat w2 w3 h1 h2 h3 _
      simp [PutFile, h1, h2, h3]
  · intro objectName bytebufr options w1 h
    simp [PutS3ObjectBytes, h, fmtErrorf]
  · intro objectName
    refine ⟨?_, ?_, ?_⟩
    · intro w1 h1
      simp [GetS3ObjectBytes, h1, fmtErrorf, empty_append]
    · intro obj w1 buf w2 h1 h2
      simp [GetS3ObjectBytes, h1, h2]
    · intro obj w1 buf w2 h1 h2 _
      simp [GetS3ObjectBytes, h1, h2]
  · intro name w1 h hne
    refine ⟨?_, rfl⟩
    simp [ObjectExists, h, hne, doesNotExist, errorsWrap]
  · intro objectName outPath
    refine ⟨?_, ?_, ?_, ?_, ?_⟩
    · intro w1 h1
      simp [DownloadObj, h1, fmtErrorf]
    · intro obj w1 w2 h1 h2
      simp [DownloadObj, h1, h2, fmtErrorf]
    · intro obj w1 localFile w2 n w3 h1 h2 h3
      simp [DownloadObj, h1, h2, h3, fmtErrorf]
    · intro obj w1 localFile w2 n w3 w4 h1 h2 h3 h4
      simp [DownloadObj, h1, h2, h3, h4, fmtErrorf]
    · intro obj w1 localFile w2 n w3 fi w4 h1 h2 h3 h4 hz _
      simp [DownloadObj, h1, h2, h3, h4, hz]
  · intro objectName
    refine ⟨?_, ?_, ?_, ?_, ?_⟩
    · intro w1 h1
      simp [Object2Tempfile, h1, fmtErrorf]
    · intro f w1 w2 h1 h2
      simp [Object2Tempfile, h1, h2, fmtErrorf]
    · intro f w1 obj w2 w3 h1 h2 h3
      simp [Object2Tempfile, h1, h2, h3, fmtErrorf]
    · intro f w1 obj w2 localFile w3 n w4 h1 h2 h3 h4
      simp [Object2Tempfile, h1, h2, h3, h4, fmtErrorf]
    · intro f w1 obj w2 localFile w3 n w4 h1 h2 h3 h4 _
      simp [Object2Tempfile, h1, h2, h3, h4]

/-- C7 as amended, at concrete worlds: a refused upload is reported with the
context of `PutS3ObjectBytes`; a failed directory creation is reported bare
by `Download`; a failing `Close()` of the uploaded file is not reported by
`PutFile`, and a failing `Close()` of the stream is not reported by
`DownloadObj`. -/
theorem error_context_witness :
    (PutS3ObjectBytes client0 "k" [1] options0
      (world0.failing (.putObject "bkt" "k" 1) (.base "Access Denied."))).val
      = some (.errorf "PutS3ObjectBytes(): Access Denied.") ∧
    (Download client0 "k" "/data" "f.bin"
      (world0.failing (.mkdirAll "/data" 0o755) (.base "Access Denied."))).val
      = some (.base "Access Denied.") ∧
    (PutFile client0 "/in" "k" options0
      (worldWithFile.failing (.fileClose "/in") (.base "input/output error"))).val = none ∧
    (DownloadObj client0 "k" "/out"
      (worldWithObject.failing (.objClose "bkt" "k") (.base "connection reset"))).val = none :=
  ⟨(error_context client0 (world0.failing (.putObject "bkt" "k" 1) (.base "Access Denied."))
      (.base "Access Denied.")).2.2.2.1 "k" [1] options0 _ rfl,
   ((error_context client0 (world0.failing (.mkdirAll "/data" 0o755) (.base "Access Denied."))
      (.base "Access Denied.")).2.1 "k" "/data" "f.bin").1 _ rfl,
   ((error_context client0
      (worldWithFile.failing (.fileClose "/in") (.base "input/output error"))
      (.base "input/output error")).2.2.1 "/in" "k" options0).2.2.2 _ _ _ _ _ rfl rfl rfl rfl,
   ((error_context client0
      (worldWithObject.failing (.objClose "bkt" "k") (.base "connection reset"))
      (.base "connection reset")).2.2.2.2.2.2.1 "k" "/out").2.2.2.2 _ _ _ _ _ _ _ _
      rfl rfl rfl rfl (by decide) (Or.inr rfl)⟩

end Objectstore
